import Mathlib

/-
  Verification development for the request-routing and middleware engine of
  the preact-rag-01-app repository (Netlify functions backend).

  The TypeScript sources are shallowly embedded: JavaScript objects become
  association lists, JSON values become the `Json` inductive type, mutation
  becomes explicit state passing, and thrown exceptions become `Except`.
  JavaScript runtime builtins that are not repository code (JSON.parse,
  atob, Date) are modelled as parameters or injective renderings, as noted
  at each definition.
-/

/-- Model of a JSON value (JavaScript numbers restricted to integers,
which covers every value the routing engine manipulates). -/
inductive Json where
  | null : Json
  | bool (b : Bool) : Json
  | num (n : Int) : Json
  | str (s : String) : Json
  | arr (elems : List Json) : Json
  | obj (fields : List (String × Json)) : Json
deriving Repr

/-- Association-list lookup, the model of reading a property of a
JavaScript object (first binding wins; the objects built by the embedded
code never carry duplicate keys). -/
def assocFind {α : Type} : List (String × α) → String → Option α
  | [], _ => none
  | (k0, v) :: rest, k => if k0 = k then some v else assocFind rest k

/-- Association-list update, the model of JavaScript property assignment:
an existing key keeps its position and gets the new value, a fresh key is
appended (insertion order preserved). -/
def assocSet {α : Type} : List (String × α) → String → α → List (String × α)
  | [], k, v => [(k, v)]
  | (k0, v0) :: rest, k, v =>
    if k0 = k then (k0, v) :: rest else (k0, v0) :: assocSet rest k v

theorem assocFind_assocSet_self {α : Type} (l : List (String × α)) (k : String) (v : α) :
    assocFind (assocSet l k v) k = some v := by
  induction l with
  | nil => simp [assocSet, assocFind]
  | cons hd tl ih =>
    by_cases h : hd.1 = k
    · simp [assocSet, assocFind, h]
    · simp [assocSet, assocFind, h, ih]

theorem assocFind_assocSet_ne {α : Type} (l : List (String × α)) (k k2 : String) (v : α)
    (h : k2 ≠ k) : assocFind (assocSet l k v) k2 = assocFind l k2 := by
  have hne : k ≠ k2 := fun hh => h hh.symm
  induction l with
  | nil => simp [assocSet, assocFind, hne]
  | cons hd tl ih =>
    by_cases hk : hd.1 = k
    · simp [assocSet, assocFind, hk, hne]
    · simp [assocSet, assocFind, hk, ih]

/-- Escapes a character for JSON string output (quote and backslash, the
two escapes the embedded bodies can contain). -/
def escapeChar (c : Char) : String :=
  if c = Char.ofNat 34 then String.singleton (Char.ofNat 92) ++ String.singleton (Char.ofNat 34)
  else if c = Char.ofNat 92 then String.singleton (Char.ofNat 92) ++ String.singleton (Char.ofNat 92)
  else String.singleton c

/-- Quotes a string as a JSON string literal. -/
def quoteJson (s : String) : String :=
  String.singleton (Char.ofNat 34) ++ String.join (s.toList.map escapeChar) ++ String.singleton (Char.ofNat 34)

mutual
/-- Model of JSON.stringify on the embedded value type. -/
def Json.stringify : Json → String
  | .null => "null"
  | .bool true => "true"
  | .bool false => "false"
  | .num n => toString n
  | .str s => quoteJson s
  | .arr elems => "[" ++ stringifyArr elems ++ "]"
  | .obj fields => "\x7b" ++ stringifyObj fields ++ "\x7d"

/-- Comma-joined serialization of array elements. -/
def stringifyArr : List Json → String
  | [] => ""
  | [j] => Json.stringify j
  | j :: rest => Json.stringify j ++ "," ++ stringifyArr rest

/-- Comma-joined serialization of object fields. -/
def stringifyObj : List (String × Json) → String
  | [] => ""
  | [(k, v)] => quoteJson k ++ ":" ++ Json.stringify v
  | (k, v) :: rest => quoteJson k ++ ":" ++ Json.stringify v ++ "," ++ stringifyObj rest
end

/-- Reads a field of a JSON object (none on non-objects, mirroring that
property access on the wire-level envelope is only meaningful for objects). -/
def getField (j : Json) (k : String) : Option Json :=
  match j with
  | .obj fields => assocFind fields k
  | _ => none


/-
  Character-level models of the JavaScript string builtins used by the
  routing engine (String.prototype.split with a one-character separator,
  startsWith, slice/drop, trim, toLowerCase). They are defined over the
  character list of the string so that concrete instances reduce inside
  the kernel.
-/

/-- Accumulating worker for jsSplit. -/
def jsSplitAux (sep : Char) : List Char → List Char → List String
  | [], acc => [String.mk acc.reverse]
  | c :: cs, acc =>
    if c = sep then String.mk acc.reverse :: jsSplitAux sep cs []
    else jsSplitAux sep cs (c :: acc)

/-- Model of JavaScript s.split(sep) for a one-character separator: the
empty string splits to a single empty segment, and every separator
occurrence starts a new segment (so leading, trailing and doubled
separators yield empty segments). -/
def jsSplit (sep : Char) (s : String) : List String :=
  jsSplitAux sep s.toList []

/-- List-of-characters prefix test. -/
def charsPrefix : List Char → List Char → Bool
  | [], _ => true
  | _ :: _, [] => false
  | c :: cs, d :: ds => if c = d then charsPrefix cs ds else false

/-- Model of JavaScript s.startsWith(p). -/
def jsStartsWith (s p : String) : Bool :=
  charsPrefix p.toList s.toList

/-- Model of JavaScript s.slice(n) for a nonnegative index. -/
def jsDrop (s : String) (n : Nat) : String :=
  String.mk (s.toList.drop n)

/-- Model of JavaScript s.trim() (whitespace in the sense of
Char.isWhitespace, which covers every character the engine handles). -/
def jsTrim (s : String) : String :=
  String.mk (((s.toList.dropWhile Char.isWhitespace).reverse.dropWhile Char.isWhitespace).reverse)

/-- Model of JavaScript s.toLowerCase() (ASCII lowering, which covers the
header names the engine looks up). -/
def jsLower (s : String) : String :=
  String.mk (s.toList.map Char.toLower)

/-
  Path matcher: Router.matchPath from
  src/netlify/shared/utils/response.utils.ts.
-/

/-- Result record of Router.matchPath: the match flag and the accumulated
parameter bindings (the source's `params` object). -/
structure MatchResult where
  isMatch : Bool
  params : List (String × String)
deriving Repr, DecidableEq

/-- The pairwise segment walk of Router.matchPath, called with two
segment lists of equal length: a segment starting with a colon always
matches and binds, any other segment must equal the path segment
literally, a mismatch aborts returning the params accumulated so far. -/
def matchPathLoop : List String → List String → List (String × String) → MatchResult
  | [], [], ps => ⟨true, ps⟩
  | rp :: rps, up :: ups, ps =>
    if jsStartsWith rp ":" then
      matchPathLoop rps ups (assocSet ps (jsDrop rp 1) up)
    else if rp = up then
      matchPathLoop rps ups ps
    else ⟨false, ps⟩
  | _, _, ps => ⟨false, ps⟩

/-- Router.matchPath: exact-equality shortcut first (returning empty
params), else split both strings on a slash, require equal segment counts,
then walk the segments pairwise. -/
def matchPath (routePath urlPath : String) : MatchResult :=
  if routePath = urlPath then ⟨true, []⟩
  else
    let routeParts := jsSplit (Char.ofNat 47) routePath
    let urlParts := jsSplit (Char.ofNat 47) urlPath
    if routeParts.length ≠ urlParts.length then ⟨false, []⟩
    else matchPathLoop routeParts urlParts []

/-- Names bound by the colon-prefixed segments of a pattern. -/
def paramNames (routeParts : List String) : List String :=
  (routeParts.filter (fun s => jsStartsWith s ":")).map (fun s => jsDrop s 1)

theorem matchPathLoop_isMatch (rps : List String) :
    ∀ (ups : List String) (ps : List (String × String)), rps.length = ups.length →
      ((matchPathLoop rps ups ps).isMatch = true ↔
        ∀ p ∈ rps.zip ups, ¬ jsStartsWith p.1 ":" = true → p.1 = p.2) := by
  induction rps with
  | nil =>
    intro ups ps h
    cases ups with
    | nil => simp [matchPathLoop]
    | cons u us => simp at h
  | cons rp rps ih =>
    intro ups ps h
    cases ups with
    | nil => simp at h
    | cons u us =>
      simp only [List.length_cons, Nat.succ.injEq] at h
      cases hcb : jsStartsWith rp ":" with
      | true =>
        have hun : matchPathLoop (rp :: rps) (u :: us) ps
            = matchPathLoop rps us (assocSet ps (jsDrop rp 1) u) := by
          simp [matchPathLoop, hcb]
        rw [hun, ih us _ h]
        simp [List.forall_mem_cons, hcb]
      | false =>
        by_cases he : rp = u
        · have hun : matchPathLoop (rp :: rps) (u :: us) ps = matchPathLoop rps us ps := by
            simp only [matchPathLoop, hcb]
            simp [he]
          rw [hun, ih us _ h]
          simp [List.forall_mem_cons, hcb, he]
        · have hun : matchPathLoop (rp :: rps) (u :: us) ps = ⟨false, ps⟩ := by
            simp only [matchPathLoop, hcb]
            simp [he]
          rw [hun]
          simp [List.forall_mem_cons, hcb, he]

theorem matchPathLoop_params_preserved (rps : List String) :
    ∀ (ups : List String) (ps : List (String × String)) (k : String), k ∉ paramNames rps →
      assocFind (matchPathLoop rps ups ps).params k = assocFind ps k := by
  induction rps with
  | nil =>
    intro ups ps k _
    cases ups <;> simp [matchPathLoop]
  | cons rp rps ih =>
    intro ups ps k hk
    cases ups with
    | nil => simp [matchPathLoop]
    | cons u us =>
      cases hcb : jsStartsWith rp ":" with
      | true =>
        have hcons : paramNames (rp :: rps) = jsDrop rp 1 :: paramNames rps := by
          simp [paramNames, hcb]
        rw [hcons] at hk
        have hk1 : k ≠ jsDrop rp 1 := fun heq => hk (by simp [heq])
        have hk2 : k ∉ paramNames rps := fun hmem => hk (List.mem_cons_of_mem _ hmem)
        have hun : matchPathLoop (rp :: rps) (u :: us) ps
            = matchPathLoop rps us (assocSet ps (jsDrop rp 1) u) := by
          simp [matchPathLoop, hcb]
        rw [hun, ih us _ k hk2, assocFind_assocSet_ne _ _ _ _ hk1]
      | false =>
        have hcons : paramNames (rp :: rps) = paramNames rps := by
          simp [paramNames, hcb]
        rw [hcons] at hk
        by_cases he : rp = u
        · have hun : matchPathLoop (rp :: rps) (u :: us) ps = matchPathLoop rps us ps := by
            simp only [matchPathLoop, hcb]
            simp [he]
          rw [hun]
          exact ih us ps k hk
        · simp only [matchPathLoop, hcb]
          simp [he]

theorem matchPathLoop_binds (rps : List String) :
    ∀ (ups : List String) (ps : List (String × String)),
      rps.length = ups.length → (paramNames rps).Nodup →
      (matchPathLoop rps ups ps).isMatch = true →
      ∀ p ∈ rps.zip ups, jsStartsWith p.1 ":" = true →
        assocFind (matchPathLoop rps ups ps).params (jsDrop p.1 1) = some p.2 := by
  induction rps with
  | nil =>
    intro ups ps _ _ _ p hp
    simp at hp
  | cons rp rps ih =>
    intro ups ps h hnd hok p hp hps
    cases ups with
    | nil => simp at h
    | cons u us =>
      simp only [List.length_cons, Nat.succ.injEq] at h
      simp only [List.zip_cons_cons, List.mem_cons] at hp
      rcases hp with hp | hp
      · subst hp
        have hrp : jsStartsWith rp ":" = true := hps
        have hnotin : jsDrop rp 1 ∉ paramNames rps := by
          have hcons : paramNames (rp :: rps) = jsDrop rp 1 :: paramNames rps := by
            simp [paramNames, hrp]
          rw [hcons] at hnd
          exact (List.nodup_cons.mp hnd).1
        have hun : matchPathLoop (rp :: rps) (u :: us) ps
            = matchPathLoop rps us (assocSet ps (jsDrop rp 1) u) := by
          simp [matchPathLoop, hrp]
        rw [hun, matchPathLoop_params_preserved rps us _ _ hnotin]
        exact assocFind_assocSet_self _ _ _
      · cases hcb : jsStartsWith rp ":" with
        | true =>
          have hnd2 : (paramNames rps).Nodup := by
            have hcons : paramNames (rp :: rps) = jsDrop rp 1 :: paramNames rps := by
              simp [paramNames, hcb]
            rw [hcons] at hnd
            exact (List.nodup_cons.mp hnd).2
          have hun : matchPathLoop (rp :: rps) (u :: us) ps
              = matchPathLoop rps us (assocSet ps (jsDrop rp 1) u) := by
            simp [matchPathLoop, hcb]
          rw [hun] at hok ⊢
          exact ih us _ h hnd2 hok p hp hps
        | false =>
          have hnd2 : (paramNames rps).Nodup := by
            have hcons : paramNames (rp :: rps) = paramNames rps := by
              simp [paramNames, hcb]
            rwa [hcons] at hnd
          by_cases he : rp = u
          · have hun : matchPathLoop (rp :: rps) (u :: us) ps = matchPathLoop rps us ps := by
              simp only [matchPathLoop, hcb]
              simp [he]
            rw [hun] at hok ⊢
            exact ih us _ h hnd2 hok p hp hps
          · exfalso
            have hun : matchPathLoop (rp :: rps) (u :: us) ps = ⟨false, ps⟩ := by
              simp only [matchPathLoop, hcb]
              simp [he]
            rw [hun] at hok
            simp at hok

theorem zip_self_fst_eq_snd {l : List String} : ∀ p ∈ l.zip l, p.1 = p.2 := by
  induction l with
  | nil => simp
  | cons x xs ih =>
    intro p hp
    simp only [List.zip_cons_cons, List.mem_cons] at hp
    rcases hp with hp | hp
    · subst hp; rfl
    · exact ih p hp

/-- C1 (amended): Router.matchPath reports a match exactly when the two
paths split on a slash into equally many segments and every pattern
segment not beginning with a colon equals the corresponding path segment;
on a match obtained through the segment walk (pattern string distinct from
the path string) each pattern segment of the form colon-name binds name to
the corresponding path segment, stated for patterns with pairwise distinct
parameter names; but on the exact-equality shortcut (pattern string equal
to the path string) no parameters are bound at all, even when the pattern
contains colon segments. In particular "/users/:id" against "/users/42"
matches binding id to "42", and "/users" against "/users/42" does not
match. -/
theorem matchPath_spec :
    (∀ P U, (matchPath P U).isMatch = true ↔
       ((jsSplit (Char.ofNat 47) P).length = (jsSplit (Char.ofNat 47) U).length ∧
        ∀ p ∈ (jsSplit (Char.ofNat 47) P).zip (jsSplit (Char.ofNat 47) U),
          ¬ jsStartsWith p.1 ":" = true → p.1 = p.2)) ∧
    (∀ P U, P ≠ U → (paramNames (jsSplit (Char.ofNat 47) P)).Nodup →
       (matchPath P U).isMatch = true →
       ∀ p ∈ (jsSplit (Char.ofNat 47) P).zip (jsSplit (Char.ofNat 47) U),
         jsStartsWith p.1 ":" = true →
         assocFind (matchPath P U).params (jsDrop p.1 1) = some p.2) ∧
    (∀ P, (matchPath P P).params = []) ∧
    ((matchPath "/users/:id" "/users/42").isMatch = true ∧
     assocFind (matchPath "/users/:id" "/users/42").params "id" = some "42" ∧
     (matchPath "/users" "/users/42").isMatch = false) := by
  refine ⟨?_, ?_, ?_, by decide, by decide, by decide⟩
  · intro P U
    by_cases hPU : P = U
    · subst hPU
      have hm : matchPath P P = ⟨true, []⟩ := by simp [matchPath]
      rw [hm]
      constructor
      · intro _
        exact ⟨rfl, fun p hp _ => zip_self_fst_eq_snd p hp⟩
      · intro _
        rfl
    · by_cases hlen : (jsSplit (Char.ofNat 47) P).length = (jsSplit (Char.ofNat 47) U).length
      · have hm : matchPath P U
            = matchPathLoop (jsSplit (Char.ofNat 47) P) (jsSplit (Char.ofNat 47) U) [] := by
          simp [matchPath, hPU, hlen]
        rw [hm, matchPathLoop_isMatch _ _ _ hlen]
        constructor
        · intro hall
          exact ⟨hlen, hall⟩
        · intro hall
          exact hall.2
      · have hm : matchPath P U = ⟨false, []⟩ := by
          simp [matchPath, hPU, hlen]
        rw [hm]
        constructor
        · intro hfalse
          simp at hfalse
        · intro hall
          exact absurd hall.1 hlen
  · intro P U hPU hnd hok p hp hps
    by_cases hlen : (jsSplit (Char.ofNat 47) P).length = (jsSplit (Char.ofNat 47) U).length
    · have hm : matchPath P U
          = matchPathLoop (jsSplit (Char.ofNat 47) P) (jsSplit (Char.ofNat 47) U) [] := by
        simp [matchPath, hPU, hlen]
      rw [hm] at hok ⊢
      exact matchPathLoop_binds _ _ _ hlen hnd hok p hp hps
    · have hm : matchPath P U = ⟨false, []⟩ := by
        simp [matchPath, hPU, hlen]
      rw [hm] at hok
      simp at hok
  · intro P
    simp [matchPath]

/-- C1 witness: the amended binding clause applied at the concrete pattern
"/a/:x" against the concrete path "/a/7". -/
theorem matchPath_spec_witness :
    assocFind (matchPath "/a/:x" "/a/7").params (jsDrop ":x" 1) = some "7" :=
  matchPath_spec.2.1 "/a/:x" "/a/7" (by decide) (by decide) (by decide)
    (":x", "7") (by decide) (by decide)

/-- C1 counterexample: on the exact-equality shortcut the code returns a
match with an empty parameter map, so for the pattern "/users/:id" applied
to the literal request path "/users/:id" the claimed binding of id to the
corresponding path segment does not happen. -/
theorem matchPath_exact_shortcut_no_binding :
    (matchPath "/users/:id" "/users/:id").isMatch = true ∧
    assocFind (matchPath "/users/:id" "/users/:id").params "id" ≠ some ":id" := by
  constructor
  · rfl
  · simp [matchPath, assocFind]

/-
  Express-like response object: Router.createResponse from
  src/netlify/shared/utils/response.utils.ts. Mutation of the JavaScript
  object becomes explicit state passing; the methods status/json/send/set
  become functions returning the updated record.
-/

/-- The mutable response builder: status code, header map, the _sent flag
and the buffered _body string. -/
structure ExpressResponse where
  statusCode : Nat
  headers : List (String × String)
  sent : Bool
  body : String
deriving Repr, DecidableEq

/-- Default headers installed by Router.createResponse. -/
def defaultHeaders : List (String × String) :=
  [("Content-Type", "application/json"),
   ("Access-Control-Allow-Origin", "*"),
   ("Access-Control-Allow-Methods", "GET, POST, PUT, DELETE, PATCH, OPTIONS"),
   ("Access-Control-Allow-Headers", "Content-Type, Authorization, x-trigger-error")]

/-- Router.createResponse: status 200, default headers, not sent, empty body. -/
def createResponse : ExpressResponse :=
  ⟨200, defaultHeaders, false, ""⟩

/-- res.status(code): sets the status code. -/
def resStatus (res : ExpressResponse) (code : Nat) : ExpressResponse :=
  { res with statusCode := code }

/-- res.json(data): unconditionally overwrites _body with the serialized
data and sets _sent (the source has no sent-guard). -/
def resJson (res : ExpressResponse) (data : Json) : ExpressResponse :=
  { res with body := Json.stringify data, sent := true }

/-- res.send(data): unconditionally overwrites _body with the raw string
and sets _sent (the source has no sent-guard). -/
def resSend (res : ExpressResponse) (data : String) : ExpressResponse :=
  { res with body := data, sent := true }

/-- res.set(key, value) / res.setHeader(key, value): JavaScript property
assignment on the headers object. -/
def resSet (res : ExpressResponse) (k v : String) : ExpressResponse :=
  { res with headers := assocSet res.headers k v }

/-- C7 counterexample: a second res.json call on an already finalized
response silently replaces the buffered body that would be serialized to
the wire, which is exactly the silent overwrite the claim rules out. -/
theorem resJson_second_call_overwrites :
    (resJson createResponse (Json.str "first")).sent = true ∧
    (resJson (resJson createResponse (Json.str "first")) (Json.str "second")).body
      ≠ (resJson createResponse (Json.str "first")).body := by
  constructor
  · rfl
  · decide

/-- C7 (amended): the response builder has no guard on the sent flag:
every json or send call, including any call made after the response was
already finalized, sets sent and replaces the buffered body with its own
serialization, so the last finalize call before serialization wins
(silent overwrite, neither a no-op nor a surfaced invariant violation). -/
theorem resJson_resSend_last_writer_wins (res : ExpressResponse) (d : Json) (s : String) :
    (resJson res d).sent = true ∧ (resJson res d).body = Json.stringify d ∧
    (resSend res s).sent = true ∧ (resSend res s).body = s :=
  ⟨rfl, rfl, rfl, rfl⟩

/-
  Response envelope builders from src/netlify/shared/utils/response.utils.ts
  and the envelopes the Router synthesizes inline in handle. Clock and
  request-id generation (Date, Math.random) are modelled as parameters.
-/

/-- A thrown JavaScript value: either an Error instance (carrying its
message) or any other value (carrying its String(...) rendering). -/
inductive JsValueThrown where
  | errObj (message : String) : JsValueThrown
  | other (rendering : String) : JsValueThrown
deriving Repr, DecidableEq

/-- The message the Router extracts from a thrown value:
error instanceof Error ? error.message : String(error). -/
def jsMessage : JsValueThrown → String
  | .errObj m => m
  | .other s => s

/-- API_VERSION from http.constants.ts. -/
def API_VERSION : String := "1.0.0"

/-- createMetadata: timestamp, requestId, version, processingTimeMs
(timestamp and requestId are clock/randomness inputs, passed as
parameters). -/
def createMetadata (timestamp requestId : String) (processingTimeMs : Int) : Json :=
  Json.obj [("timestamp", .str timestamp), ("requestId", .str requestId),
            ("version", .str API_VERSION), ("processingTimeMs", .num processingTimeMs)]

/-- createErrorResponse: INTERNAL_ERROR with the message for Error
instances, UNKNOWN_ERROR with the String rendering otherwise, wrapped with
full metadata. -/
def createErrorResponse (e : JsValueThrown) (timestamp requestId : String)
    (processingTimeMs : Int) : Json :=
  let apiError := match e with
    | .errObj m => Json.obj [("code", .str "INTERNAL_ERROR"), ("message", .str m)]
    | .other s => Json.obj [("code", .str "UNKNOWN_ERROR"), ("message", .str s)]
  Json.obj [("status", .str "error"), ("error", apiError),
            ("metadata", createMetadata timestamp requestId processingTimeMs)]

/-- createSuccessResponse: status success, the payload, full metadata. -/
def createSuccessResponse (payload : Json) (timestamp requestId : String)
    (processingTimeMs : Int) : Json :=
  Json.obj [("status", .str "success"), ("payload", payload),
            ("metadata", createMetadata timestamp requestId processingTimeMs)]

/-- The envelope Router.handle synthesizes when no route matched: note the
inline metadata object carries only timestamp and processingTimeMs. -/
def notFoundEnvelope (method path timestamp : String) (processingTimeMs : Int) : Json :=
  Json.obj [("status", .str "error"),
    ("error", Json.obj [("code", .str "NOT_FOUND"),
      ("message", .str ("Cannot " ++ method ++ " " ++ path))]),
    ("metadata", Json.obj [("timestamp", .str timestamp),
      ("processingTimeMs", .num processingTimeMs)])]

/-- The envelope Router.handle synthesizes in its outer catch: note the
inline metadata object carries only timestamp and processingTimeMs. -/
def internalErrorEnvelope (errorMessage timestamp : String) (processingTimeMs : Int) : Json :=
  Json.obj [("status", .str "error"),
    ("error", Json.obj [("code", .str "INTERNAL_ERROR"), ("message", .str errorMessage)]),
    ("metadata", Json.obj [("timestamp", .str timestamp),
      ("processingTimeMs", .num processingTimeMs)])]

/-- The body the root "/" discovery route sends (main API router module):
a status field, a message and an endpoints map, with no payload and no
metadata. -/
def rootEndpointBody : Json :=
  Json.obj [("status", .str "success"),
    ("message", .str "API available at /api"),
    ("endpoints", Json.obj [("api", .str "/api"), ("users", .str "/api/users"),
      ("health", .str "/api/health")])]

/-- Bool test that an optional JSON value is a given string. -/
def isStrField (o : Option Json) (s : String) : Bool :=
  match o with
  | some (.str t) => t = s
  | _ => false

/-- The uniform-envelope invariant claimed by the specification: exactly
one of payload (status success) or error (status error) is present, and
metadata.timestamp and metadata.version are both present. -/
def envelopeOk (j : Json) : Bool :=
  ((isStrField (getField j "status") "success"
      && (getField j "payload").isSome && (getField j "error").isNone)
   || (isStrField (getField j "status") "error"
      && (getField j "error").isSome && (getField j "payload").isNone))
  && (match getField j "metadata" with
      | some md => (getField md "timestamp").isSome && (getField md "version").isSome
      | none => false)

/-- C3 counterexample: the Router's synthesized 404 envelope omits
metadata.version, and the root "/" discovery response carries neither a
payload nor a metadata object at all, so neither satisfies the claimed
uniform-envelope invariant. -/
theorem envelope_invariant_violations :
    envelopeOk (notFoundEnvelope "GET" "/nope" "2024-01-01T00:00:00.000Z" 0) = false ∧
    envelopeOk rootEndpointBody = false := by
  constructor
  · rfl
  · rfl

/-- C3 (amended): envelopes built through createSuccessResponse and
createErrorResponse satisfy the uniform-envelope invariant (exactly one of
payload or error, matching the status tag, with metadata.timestamp and
metadata.version present); but the Router's synthesized 404 and 500
envelopes carry a metadata object with only timestamp and processingTimeMs
(no version), and the root "/" discovery endpoint responds with a status
field and no payload and no metadata, so those three responses violate
the invariant. -/
theorem envelope_invariant_spec (payload : Json) (e : JsValueThrown)
    (m p ts rid msg : String) (pt : Int) :
    envelopeOk (createSuccessResponse payload ts rid pt) = true ∧
    envelopeOk (createErrorResponse e ts rid pt) = true ∧
    envelopeOk (notFoundEnvelope m p ts pt) = false ∧
    envelopeOk (internalErrorEnvelope msg ts pt) = false ∧
    envelopeOk rootEndpointBody = false := by
  refine ⟨rfl, ?_, rfl, rfl, rfl⟩
  cases e <;> rfl

/-
  Router model: route table, middleware list, registration API and handle,
  from src/netlify/shared/utils/response.utils.ts. A JWT payload record is
  declared here because the authentication middleware attaches it to the
  request object.
-/

/-- The five claims of the decoded JWT payload (auth.middleware.ts). -/
structure JWTPayload where
  userId : String
  email : String
  role : String
  iat : Int
  exp : Int
deriving Repr, DecidableEq

/-- The Express-like request object built by Router.createRequest; the
user field models the property the authentication middleware attaches. -/
structure ExpressRequest where
  method : String
  url : String
  path : String
  query : List (String × String)
  params : List (String × String)
  headers : List (String × String)
  body : Option Json
  user : Option JWTPayload
deriving Repr

/-- Execution of embedded JavaScript code: either a normal result or a
thrown value paired with the state of the response object at the moment
of the throw. -/
abbrev ExecResult (α : Type) := Except (JsValueThrown × ExpressResponse) α

/-- A route handler: receives the request (with params bound) and the
response, returns the updated response or throws. -/
abbrev RouteHandlerM := ExpressRequest → ExpressResponse → ExecResult ExpressResponse

/-- A global middleware: receives request and response and either throws
or returns the updated request and response together with the flag saying
whether it invoked next (the model covers middleware that do their work
and then either call next once or finalize without calling it, which is
the discipline every middleware of this repository follows). -/
abbrev MiddlewareM :=
  ExpressRequest → ExpressResponse → ExecResult (ExpressRequest × ExpressResponse × Bool)

/-- A registered route: method, path pattern, handler. -/
structure RouteModel where
  method : String
  path : String
  handler : RouteHandlerM

/-- Router.handle's runMiddleware loop: each middleware runs in list
order, and the rest of the chain runs only when it calls next. -/
def runMiddlewares : List MiddlewareM → ExpressRequest → ExpressResponse →
    ExecResult (ExpressRequest × ExpressResponse)
  | [], req, res => .ok (req, res)
  | m :: rest, req, res => do
    let (req2, res2, callNext) ← m req res
    if callNext then runMiddlewares rest req2 res2 else .ok (req2, res2)

/-- Router.handle's route scan: skip routes whose method differs, match
the path, bind params onto the request, run the handler, return as soon
as a handler finalized the response, keep scanning otherwise. -/
def runRoutes : List RouteModel → ExpressRequest → ExpressResponse →
    ExecResult (ExpressRequest × ExpressResponse)
  | [], req, res => .ok (req, res)
  | rt :: rest, req, res =>
    if rt.method = req.method then
      let mr := matchPath rt.path req.path
      if mr.isMatch then
        let req2 := { req with params := mr.params }
        do
          let res2 ← rt.handler req2 res
          if res2.sent then .ok (req2, res2) else runRoutes rest req2 res2
      else runRoutes rest req res
    else runRoutes rest req res

/-- The Router: a route table and a global middleware list. -/
structure RouterModel where
  routes : List RouteModel
  middlewares : List MiddlewareM

/-- createRouter(): empty route table and middleware list. -/
def createRouter : RouterModel := ⟨[], []⟩

/-- Router.use(middleware): appends a global middleware. -/
def routerUseMw (r : RouterModel) (m : MiddlewareM) : RouterModel :=
  { r with middlewares := r.middlewares ++ [m] }

/-- Router.combinePaths: trim a trailing slash from the base, special-case
the child paths "/" and "" so the combined path gains no trailing slash,
else ensure the child starts with a slash and concatenate. -/
def combinePaths (base path : String) : String :=
  let normalizedBase := if base.endsWith "/" then base.dropRight 1 else base
  if path = "/" ∨ path = "" then normalizedBase
  else
    let normalizedPath := if jsStartsWith path "/" then path else "/" ++ path
    normalizedBase ++ normalizedPath

/-- Router.use(path, subRouter): copies the sub-router's routes into the
parent's table with the prefix prepended; neither middleware list is
touched. -/
def routerUseRouter (r : RouterModel) (pfx : String) (sub : RouterModel) : RouterModel :=
  { r with
    routes := r.routes ++ sub.routes.map (fun rt => { rt with path := combinePaths pfx rt.path }) }

/-- Router.get. -/
def routerGet (r : RouterModel) (p : String) (h : RouteHandlerM) : RouterModel :=
  { r with routes := r.routes ++ [⟨"GET", p, h⟩] }

/-- Router.post. -/
def routerPost (r : RouterModel) (p : String) (h : RouteHandlerM) : RouterModel :=
  { r with routes := r.routes ++ [⟨"POST", p, h⟩] }

/-- Router.options. -/
def routerOptions (r : RouterModel) (p : String) (h : RouteHandlerM) : RouterModel :=
  { r with routes := r.routes ++ [⟨"OPTIONS", p, h⟩] }

/-- The wire-level response that handle returns. -/
structure HttpResponse where
  status : Nat
  headers : List (String × String)
  body : String
deriving Repr, DecidableEq

/-- Projection of the finalized response builder to the wire response. -/
def toHttp (res : ExpressResponse) : HttpResponse :=
  ⟨res.statusCode, res.headers, res.body⟩

/-- Router.handle: run the middleware chain, return early if it finalized
the response; scan the route table; if nothing was finalized synthesize
the 404 envelope; any throw from middleware or handler is caught and
converted into the 500 INTERNAL_ERROR envelope on the response object as
it stood at the throw. The wall clock (timestamp string, elapsed
milliseconds) is a parameter. -/
def handle (r : RouterModel) (req0 : ExpressRequest) (timestamp : String)
    (processingTimeMs : Int) : HttpResponse :=
  match runMiddlewares r.middlewares req0 createResponse with
  | .error (e, resErr) =>
      toHttp (resJson (resStatus resErr 500)
        (internalErrorEnvelope (jsMessage e) timestamp processingTimeMs))
  | .ok (req1, res1) =>
    if res1.sent then toHttp res1
    else
      match runRoutes r.routes req1 res1 with
      | .error (e, resErr) =>
          toHttp (resJson (resStatus resErr 500)
            (internalErrorEnvelope (jsMessage e) timestamp processingTimeMs))
      | .ok (req2, res2) =>
        if res2.sent then toHttp res2
        else toHttp (resJson (resStatus res2 404)
          (notFoundEnvelope req2.method req2.path timestamp processingTimeMs))

theorem runRoutes_no_match (rts : List RouteModel) (req : ExpressRequest) (res : ExpressResponse)
    (h : ∀ rt ∈ rts, rt.method = req.method → (matchPath rt.path req.path).isMatch = false) :
    runRoutes rts req res = .ok (req, res) := by
  induction rts with
  | nil => rfl
  | cons rt rest ih =>
    by_cases hm : rt.method = req.method
    · have hfalse := h rt (List.mem_cons_self _ _) hm
      simp only [runRoutes, if_pos hm, hfalse]
      simp only [Bool.false_eq_true, if_false]
      exact ih (fun rt2 hrt2 => h rt2 (List.mem_cons_of_mem _ hrt2))
    · simp only [runRoutes, if_neg hm]
      exact ih (fun rt2 hrt2 => h rt2 (List.mem_cons_of_mem _ hrt2))

/-- A sample request used by concrete witnesses. -/
def sampleReq : ExpressRequest :=
  ⟨"GET", "http://localhost/nope", "/nope", [], [], [], none, none⟩

/-- C2: Router.handle always resolves to a wire response by construction
(its result type is total); when any global middleware or route handler
throws, the result is the 500 INTERNAL_ERROR envelope carrying the thrown
error's message; when the middleware chain completes without finalizing
the response and no route whose method equals the request's method matches
the request path, the result is the 404 NOT_FOUND envelope. -/
theorem handle_spec :
    (∀ (r : RouterModel) (req : ExpressRequest) (ts : String) (pt : Int)
       (e : JsValueThrown) (resErr : ExpressResponse),
       (runMiddlewares r.middlewares req createResponse = .error (e, resErr) ∨
        (∃ req1 res1, runMiddlewares r.middlewares req createResponse = .ok (req1, res1) ∧
          res1.sent = false ∧ runRoutes r.routes req1 res1 = .error (e, resErr))) →
       (handle r req ts pt = toHttp (resJson (resStatus resErr 500)
          (internalErrorEnvelope (jsMessage e) ts pt)) ∧
        (handle r req ts pt).status = 500 ∧
        (handle r req ts pt).body = Json.stringify (internalErrorEnvelope (jsMessage e) ts pt) ∧
        getField (internalErrorEnvelope (jsMessage e) ts pt) "status" = some (.str "error") ∧
        ∃ errObj, getField (internalErrorEnvelope (jsMessage e) ts pt) "error" = some errObj ∧
          getField errObj "code" = some (.str "INTERNAL_ERROR") ∧
          getField errObj "message" = some (.str (jsMessage e)))) ∧
    (∀ (r : RouterModel) (req : ExpressRequest) (ts : String) (pt : Int)
       (req1 : ExpressRequest) (res1 : ExpressResponse),
       runMiddlewares r.middlewares req createResponse = .ok (req1, res1) →
       res1.sent = false →
       (∀ rt ∈ r.routes, rt.method = req1.method → (matchPath rt.path req1.path).isMatch = false) →
       ((handle r req ts pt).status = 404 ∧
        (handle r req ts pt).body = Json.stringify (notFoundEnvelope req1.method req1.path ts pt) ∧
        getField (notFoundEnvelope req1.method req1.path ts pt) "status" = some (.str "error") ∧
        ∃ errObj, getField (notFoundEnvelope req1.method req1.path ts pt) "error" = some errObj ∧
          getField errObj "code" = some (.str "NOT_FOUND"))) := by
  constructor
  · intro r req ts pt e resErr hcase
    have hres : handle r req ts pt = toHttp (resJson (resStatus resErr 500)
        (internalErrorEnvelope (jsMessage e) ts pt)) := by
      rcases hcase with herr | ⟨req1, res1, hok, hsent, herr⟩
      · simp only [handle, herr]
      · simp only [handle, hok, hsent, Bool.false_eq_true, if_false, herr]
    refine ⟨hres, ?_, ?_, rfl, ?_⟩
    · rw [hres]; rfl
    · rw [hres]; rfl
    · exact ⟨Json.obj [("code", .str "INTERNAL_ERROR"), ("message", .str (jsMessage e))],
        rfl, rfl, rfl⟩
  · intro r req ts pt req1 res1 hok hsent hnomatch
    have hrr := runRoutes_no_match r.routes req1 res1 hnomatch
    have hres : handle r req ts pt = toHttp (resJson (resStatus res1 404)
        (notFoundEnvelope req1.method req1.path ts pt)) := by
      simp only [handle, hok, hsent, Bool.false_eq_true, if_false, hrr]
    refine ⟨?_, ?_, rfl, ?_⟩
    · rw [hres]; rfl
    · rw [hres]; rfl
    · exact ⟨Json.obj [("code", .str "NOT_FOUND"),
        ("message", .str ("Cannot " ++ req1.method ++ " " ++ req1.path))], rfl, rfl⟩

/-- C2 witness: a router whose single middleware throws an Error with
message "boom" answers 500, and a router with no routes answers 404. -/
theorem handle_spec_witness :
    (handle ⟨[], [fun _ res => .error (JsValueThrown.errObj "boom", res)]⟩
        sampleReq "t" 0).status = 500 ∧
    (handle ⟨[], []⟩ sampleReq "t" 0).status = 404 :=
  ⟨(handle_spec.1 ⟨[], [fun _ res => .error (JsValueThrown.errObj "boom", res)]⟩
      sampleReq "t" 0 (JsValueThrown.errObj "boom") createResponse (Or.inl rfl)).2.1,
   (handle_spec.2 ⟨[], []⟩ sampleReq "t" 0 sampleReq createResponse rfl rfl
      (by intro rt hrt; simp at hrt)).1⟩

/-
  The main router module (the api sub-router with its middleware, mounted
  under /api on the main router, which then registers the root route).
-/

/-- The api sub-router: three middleware registered via use (CORS, logger,
rate limiter), the greeting/post/options routes at its root, the health
route, and the users sub-router mounted under /users. -/
def apiRouterModel (mcors mlog mrate : MiddlewareM)
    (hGreeting hPost hOpt hHealth : RouteHandlerM) (usersRouter : RouterModel) : RouterModel :=
  let r := routerUseMw (routerUseMw (routerUseMw createRouter mcors) mlog) mrate
  let r := routerGet r "/" hGreeting
  let r := routerPost r "/" hPost
  let r := routerOptions r "/" hOpt
  let r := routerGet r "/health" hHealth
  routerUseRouter r "/users" usersRouter

/-- The main router: the api sub-router mounted under /api, then the root
discovery route. -/
def mainRouterModel (mcors mlog mrate : MiddlewareM)
    (hGreeting hPost hOpt hHealth hRoot : RouteHandlerM) (usersRouter : RouterModel) : RouterModel :=
  let r := routerUseRouter createRouter "/api"
    (apiRouterModel mcors mlog mrate hGreeting hPost hOpt hHealth usersRouter)
  routerGet r "/" hRoot

/-- C10: mounting a sub-router copies only its routes (prefix prepended)
into the parent's table, leaving the parent's middleware list unchanged
and never transferring the sub-router's middleware list; concretely, the
main router of this repository ends up with an empty middleware list even
though its api sub-router registered the CORS, logging and rate-limiting
middleware, so the middleware phase of handle on the main router runs
nothing at all. -/
theorem routerUseRouter_spec :
    (∀ (parent : RouterModel) (pfx : String) (sub : RouterModel),
       (routerUseRouter parent pfx sub).middlewares = parent.middlewares ∧
       (routerUseRouter parent pfx sub).routes
         = parent.routes
           ++ sub.routes.map (fun rt => { rt with path := combinePaths pfx rt.path })) ∧
    (∀ (mcors mlog mrate : MiddlewareM)
       (hGreeting hPost hOpt hHealth hRoot : RouteHandlerM) (usersRouter : RouterModel),
       (apiRouterModel mcors mlog mrate hGreeting hPost hOpt hHealth usersRouter).middlewares
         = [mcors, mlog, mrate] ∧
       (mainRouterModel mcors mlog mrate hGreeting hPost hOpt hHealth hRoot
           usersRouter).middlewares = [] ∧
       ∀ (req : ExpressRequest) (res : ExpressResponse),
         runMiddlewares (mainRouterModel mcors mlog mrate hGreeting hPost hOpt hHealth hRoot
           usersRouter).middlewares req res = .ok (req, res)) :=
  ⟨fun _ _ _ => ⟨rfl, rfl⟩,
   fun _ _ _ _ _ _ _ _ _ => ⟨rfl, rfl, fun _ _ => rfl⟩⟩

/-
  Middleware chain composer: createMiddlewareChain from
  src/netlify/shared/middleware/index.ts (the dispatch closure with the
  shared re-entrancy index). A middleware is modelled by the number of
  times its body invokes the next callback it receives, which is the only
  aspect of middleware behavior dispatch observes.
-/

/-- State threaded through the composed chain: the shared mutable index
of the dispatch closure, the order in which middleware bodies started,
and how many times the final next ran. -/
structure ChainState where
  index : Int
  entered : List Nat
  finalNextCalls : Nat
deriving Repr, DecidableEq

/-- Runs an action the given number of times in sequence, stopping at the
first throw: a middleware body invoking its next callback k times. -/
def chainIter (f : ChainState → Except String ChainState) :
    Nat → ChainState → Except String ChainState
  | 0, st => .ok st
  | k + 1, st =>
    match f st with
    | .error e => .error e
    | .ok st2 => chainIter f k st2

/-- The dispatch closure of createMiddlewareChain: invoking position i
with the shared index already at or past i throws the double-invocation
error; otherwise the shared index advances to i; a position below the
list length enters middleware i and runs its next (dispatch at i + 1) the
recorded number of times; the position just past the list is the final
next. -/
def dispatch (ms : List Nat) (i : Nat) (st : ChainState) : Except String ChainState :=
  if (i : Int) ≤ st.index then .error "next() called multiple times"
  else
    let st1 : ChainState := { st with index := (i : Int) }
    if h : i < ms.length then
      chainIter (fun s => dispatch ms (i + 1) s) ms[i]
        { st1 with entered := st1.entered ++ [i] }
    else .ok { st1 with finalNextCalls := st1.finalNextCalls + 1 }
termination_by ms.length + 1 - i
decreasing_by
  simp_wf
  omega

/-- createMiddlewareChain: the composed callable starts the chain by
dispatching position 0 with the shared index at -1. -/
def createMiddlewareChain (ms : List Nat) : Except String ChainState :=
  dispatch ms 0 ⟨-1, [], 0⟩

theorem dispatch_ok_guard (ms : List Nat) (i : Nat) (st st2 : ChainState)
    (h : dispatch ms i st = .ok st2) : st.index < (i : Int) := by
  by_contra hc
  push_neg at hc
  rw [dispatch, if_pos hc] at h
  exact absurd h (by simp)

theorem chainIter_ok_bound (f : ChainState → Except String ChainState)
    (hf : ∀ s s2, f s = .ok s2 → s.index ≤ s2.index) :
    ∀ (k : Nat) (s s2 : ChainState), chainIter f k s = .ok s2 → s.index ≤ s2.index := by
  intro k
  induction k with
  | zero =>
    intro s s2 h
    simp only [chainIter] at h
    cases h
    exact le_refl _
  | succ k ih =>
    intro s s2 h
    simp only [chainIter] at h
    cases hfs : f s with
    | error e => rw [hfs] at h; exact absurd h (by simp)
    | ok s3 =>
      rw [hfs] at h
      exact le_trans (hf s s3 hfs) (ih s3 s2 h)

theorem dispatch_index_ge_fuel (ms : List Nat) (n : Nat) :
    ∀ (i : Nat) (st st2 : ChainState), ms.length + 1 - i ≤ n →
      dispatch ms i st = .ok st2 → (i : Int) ≤ st2.index := by
  induction n with
  | zero =>
    intro i st st2 hle h
    have hguard := dispatch_ok_guard ms i st st2 h
    rw [dispatch, if_neg (not_le.mpr hguard)] at h
    have hni : ¬ i < ms.length := by omega
    rw [dif_neg hni] at h
    cases h
    exact le_refl _
  | succ n ih =>
    intro i st st2 hle h
    have hguard := dispatch_ok_guard ms i st st2 h
    rw [dispatch, if_neg (not_le.mpr hguard)] at h
    by_cases hi : i < ms.length
    · rw [dif_pos hi] at h
      have hf : ∀ s s2, dispatch ms (i + 1) s = .ok s2 → s.index ≤ s2.index := by
        intro s s2 hs
        have hg := dispatch_ok_guard ms (i + 1) s s2 hs
        have hge := ih (i + 1) s s2 (by omega) hs
        omega
      have := chainIter_ok_bound _ hf ms[i] _ _ h
      simp only at this
      omega
    · rw [dif_neg hi] at h
      cases h
      exact le_refl _

theorem dispatch_index_ge (ms : List Nat) (i : Nat) (st st2 : ChainState)
    (h : dispatch ms i st = .ok st2) : (i : Int) ≤ st2.index :=
  dispatch_index_ge_fuel ms (ms.length + 1 - i) i st st2 (le_refl _) h

theorem chainIter_error_msg (f : ChainState → Except String ChainState) (msg : String)
    (hf : ∀ s e, f s = .error e → e = msg) :
    ∀ (k : Nat) (s : ChainState) (e : String), chainIter f k s = .error e → e = msg := by
  intro k
  induction k with
  | zero =>
    intro s e h
    simp only [chainIter] at h
    exact absurd h (by simp)
  | succ k ih =>
    intro s e h
    simp only [chainIter] at h
    cases hfs : f s with
    | error e2 =>
      rw [hfs] at h
      cases h
      exact hf s e hfs
    | ok s3 =>
      rw [hfs] at h
      exact ih s3 e h

theorem dispatch_error_msg_fuel (ms : List Nat) (n : Nat) :
    ∀ (i : Nat) (st : ChainState) (e : String), ms.length + 1 - i ≤ n →
      dispatch ms i st = .error e → e = "next() called multiple times" := by
  induction n with
  | zero =>
    intro i st e hle h
    by_cases hg : (i : Int) ≤ st.index
    · rw [dispatch, if_pos hg] at h
      cases h
      rfl
    · rw [dispatch, if_neg hg] at h
      have hni : ¬ i < ms.length := by omega
      rw [dif_neg hni] at h
      exact absurd h (by simp)
  | succ n ih =>
    intro i st e hle h
    by_cases hg : (i : Int) ≤ st.index
    · rw [dispatch, if_pos hg] at h
      cases h
      rfl
    · rw [dispatch, if_neg hg] at h
      by_cases hi : i < ms.length
      · rw [dif_pos hi] at h
        exact chainIter_error_msg _ _ (fun s e2 hs => ih (i + 1) s e2 (by omega) hs)
          ms[i] _ e h
      · rw [dif_neg hi] at h
        exact absurd h (by simp)

theorem dispatch_error_msg (ms : List Nat) (i : Nat) (st : ChainState) (e : String)
    (h : dispatch ms i st = .error e) : e = "next() called multiple times" :=
  dispatch_error_msg_fuel ms (ms.length + 1 - i) i st e (le_refl _) h

theorem dispatch_all_ones_fuel (ms : List Nat) (hms : ∀ k ∈ ms, k = 1) (n : Nat) :
    ∀ (i : Nat) (st : ChainState), ms.length + 1 - i ≤ n →
      st.index < (i : Int) → i ≤ ms.length →
      dispatch ms i st = .ok ⟨(ms.length : Int),
        st.entered ++ List.range' i (ms.length - i), st.finalNextCalls + 1⟩ := by
  induction n with
  | zero =>
    intro i st hle hidx hi
    omega
  | succ n ih =>
    intro i st hle hidx hi
    rw [dispatch, if_neg (not_le.mpr hidx)]
    by_cases hlt : i < ms.length
    · rw [dif_pos hlt]
      have hk : ms[i] = 1 := hms _ (List.getElem_mem hlt)
      rw [hk]
      have hih := ih (i + 1) ⟨(i : Int), st.entered ++ [i], st.finalNextCalls⟩
        (by omega) (by exact_mod_cast Int.lt_add_one_of_le (le_refl _)) (by omega)
      simp only [chainIter]
      rw [hih]
      have hrange : List.range' i (ms.length - i)
          = i :: List.range' (i + 1) (ms.length - (i + 1)) := by
        have hsub : ms.length - i = (ms.length - (i + 1)) + 1 := by omega
        rw [hsub, List.range'_succ]
      simp [hrange]
    · rw [dif_neg hlt]
      have hieq : i = ms.length := by omega
      subst hieq
      simp

theorem chainIter_two_error (f : ChainState → Except String ChainState) (msg : String)
    (hferr : ∀ s e, f s = .error e → e = msg)
    (hfok : ∀ s s2, f s = .ok s2 → f s2 = .error msg) :
    ∀ (k : Nat) (s : ChainState), chainIter f (k + 2) s = .error msg := by
  intro k s
  cases hf1 : f s with
  | error e =>
    have hmsg : e = msg := hferr s e hf1
    subst hmsg
    simp only [chainIter, hf1]
  | ok s2 =>
    have h2 := hfok s s2 hf1
    simp only [chainIter, hf1, h2]

theorem dispatch_double_fuel (ms : List Nat) (n : Nat) :
    ∀ (i j : Nat) (st : ChainState) (hj : j < ms.length), ms.length + 1 - i ≤ n →
      st.index < (i : Int) → i ≤ j →
      (∀ p, i ≤ p → p < j → ∀ (hp : p < ms.length), ms[p] = 1) →
      2 ≤ ms[j] →
      dispatch ms i st = .error "next() called multiple times" := by
  induction n with
  | zero =>
    intro i j st hj hle hidx hij hones hk2
    omega
  | succ n ih =>
    intro i j st hj hle hidx hij hones hk2
    rw [dispatch, if_neg (not_le.mpr hidx)]
    have hlt : i < ms.length := by omega
    rw [dif_pos hlt]
    by_cases hej : i = j
    · subst hej
      obtain ⟨k2, hk⟩ : ∃ k2, ms[i] = k2 + 2 := ⟨ms[i] - 2, by omega⟩
      rw [hk]
      exact chainIter_two_error _ _
        (fun s e hs => dispatch_error_msg ms (i + 1) s e hs)
        (fun s s2 hs => by rw [dispatch, if_pos (dispatch_index_ge ms (i + 1) s s2 hs)])
        k2 _
    · have hij2 : i < j := lt_of_le_of_ne hij hej
      have hk1 : ms[i] = 1 := hones i (le_refl _) hij2 hlt
      rw [hk1]
      simp only [chainIter]
      set st1e : ChainState := ⟨(i : Int), st.entered ++ [i], st.finalNextCalls⟩ with hst1e
      have hf1 : dispatch ms (i + 1) st1e = .error "next() called multiple times" := by
        refine ih (i + 1) j st1e hj (by omega) ?_ (by omega)
          (fun p hp1 hp2 hp3 => hones p (by omega) hp2 hp3) hk2
        show (i : Int) < ((i + 1 : Nat) : Int)
        exact_mod_cast Nat.lt_succ_self i
      simp only [hf1]

/-- C4: for every middleware list, the callable built by
createMiddlewareChain runs the middleware in list order (the entered
trace is exactly positions 0, 1, ... in order) and invokes the final next
exactly once when every middleware calls its next exactly once (for the
empty list this happens immediately); and whenever the chain reaches a
middleware that invokes its next twice at the same position, a
synchronous Error whose message is "next() called multiple times" is
thrown. -/
theorem createMiddlewareChain_spec :
    (∀ ms : List Nat, (∀ k ∈ ms, k = 1) →
       createMiddlewareChain ms = .ok ⟨(ms.length : Int), List.range' 0 ms.length, 1⟩) ∧
    (∀ (pre post : List Nat) (k : Nat), (∀ j ∈ pre, j = 1) → 2 ≤ k →
       createMiddlewareChain (pre ++ k :: post) = .error "next() called multiple times") := by
  constructor
  · intro ms hms
    have h := dispatch_all_ones_fuel ms hms (ms.length + 1) 0 ⟨-1, [], 0⟩
      (by omega) (by decide) (by omega)
    simpa [createMiddlewareChain] using h
  · intro pre post k hpre hk2
    have hj : pre.length < (pre ++ k :: post).length := by simp
    have hones : ∀ p, 0 ≤ p → p < pre.length →
        ∀ (hp : p < (pre ++ k :: post).length), (pre ++ k :: post)[p] = 1 := by
      intro p _ hp2 hp3
      rw [List.getElem_append_left (by omega)]
      exact hpre _ (List.getElem_mem _)
    have hkj : 2 ≤ (pre ++ k :: post)[pre.length] := by
      rw [List.getElem_append_right (le_refl _)]
      simpa using hk2
    exact dispatch_double_fuel (pre ++ k :: post) ((pre ++ k :: post).length + 1) 0 pre.length
      ⟨-1, [], 0⟩ hj (by omega) (by decide) (by omega) hones hkj

/-- C4 witness: a three-middleware chain each calling next once completes
with trace 0,1,2 and one final-next invocation; a chain whose second
middleware calls next twice throws the double-invocation error. -/
theorem createMiddlewareChain_spec_witness :
    createMiddlewareChain [1, 1, 1] = .ok ⟨(3 : Int), List.range' 0 3, 1⟩ ∧
    createMiddlewareChain [1, 2] = .error "next() called multiple times" :=
  ⟨createMiddlewareChain_spec.1 [1, 1, 1] (by decide),
   createMiddlewareChain_spec.2 [1] [] 2 (by decide) (by decide)⟩

/-
  Rate limiting middleware: rateLimit and MemoryRateLimitStore from
  src/netlify/shared/middleware (rate-limit.middleware.ts). The store is
  the in-memory map, the clock is a parameter, and new Date(x).toISOString
  is modelled as the injective decimal rendering of the epoch value.
-/

/-- A rate-limit store entry: request count and window reset time. -/
structure RLEntry where
  count : Nat
  resetTime : Int
deriving Repr, DecidableEq

/-- MemoryRateLimitStore.get: an entry whose reset time is at or before
now counts as absent. -/
def storeGet (store : List (String × RLEntry)) (key : String) (now : Int) : Option RLEntry :=
  match assocFind store key with
  | none => none
  | some entry => if entry.resetTime ≤ now then none else some entry

/-- MemoryRateLimitStore.increment: an absent or expired entry is replaced
by a fresh entry with count 1 and the new reset time; a live entry has its
count incremented in place; returns the resulting entry and store. -/
def storeIncrement (store : List (String × RLEntry)) (key : String) (resetTime now : Int) :
    RLEntry × List (String × RLEntry) :=
  match assocFind store key with
  | none => (⟨1, resetTime⟩, assocSet store key ⟨1, resetTime⟩)
  | some existing =>
    if existing.resetTime ≤ now then (⟨1, resetTime⟩, assocSet store key ⟨1, resetTime⟩)
    else (⟨existing.count + 1, existing.resetTime⟩,
      assocSet store key ⟨existing.count + 1, existing.resetTime⟩)

/-- The pre-increment count the middleware reads: current?.count ?? 0. -/
def currentCount (store : List (String × RLEntry)) (key : String) (now : Int) : Nat :=
  match storeGet store key now with
  | some entry => entry.count
  | none => 0

/-- Math.max. -/
def mathMax (a b : Int) : Int := if a ≤ b then b else a

/-- The 429 RATE_LIMIT_EXCEEDED envelope the middleware sends (the ISO
rendering of the reset instant is modelled as its decimal epoch value). -/
def rateLimitEnvelope (message : String) (max : Nat) (resetTime : Int)
    (timestamp requestId : String) : Json :=
  Json.obj [("status", .str "error"),
    ("error", Json.obj [("code", .str "RATE_LIMIT_EXCEEDED"), ("message", .str message),
      ("details", Json.obj [("limit", .num max), ("remaining", .num 0),
        ("resetTime", .str (toString resetTime))])]),
    ("metadata", Json.obj [("timestamp", .str timestamp), ("requestId", .str requestId),
      ("processingTimeMs", .num 0)])]

/-- Result of one pass of the rateLimit middleware for one request. -/
structure RateLimitResult where
  store : List (String × RLEntry)
  res : ExpressResponse
  nextCalled : Bool
deriving Repr, DecidableEq

/-- One pass of the rateLimit middleware: skip short-circuits to next;
otherwise read the current count, reject with the 429 envelope when the
pre-increment count already reached the maximum (no X-RateLimit headers,
no next), else increment the store, set the X-RateLimit headers per the
standardHeaders/legacyHeaders flags and call next. -/
def rateLimit (windowMs : Int) (max : Nat) (message : String)
    (standardHeaders legacyHeaders skipReq : Bool) (key timestamp requestId : String)
    (now : Int) (store : List (String × RLEntry)) (res : ExpressResponse) : RateLimitResult :=
  if skipReq then ⟨store, res, true⟩
  else
    let resetTime := now + windowMs
    let count := currentCount store key now
    if max ≤ count then
      ⟨store,
       resJson (resStatus res 429) (rateLimitEnvelope message max resetTime timestamp requestId),
       false⟩
    else
      let incr := storeIncrement store key resetTime now
      let count2 := incr.1.count
      let res2 :=
        if standardHeaders then
          resSet (resSet (resSet res "X-RateLimit-Limit" (toString max))
              "X-RateLimit-Remaining" (toString (mathMax 0 ((max : Int) - (count2 : Int)))))
            "X-RateLimit-Reset" (toString (Int.fdiv resetTime 1000))
        else res
      let res3 :=
        if legacyHeaders then
          resSet (resSet res2 "X-RateLimit-Limit" (toString max))
            "X-RateLimit-Remaining" (toString (mathMax 0 ((max : Int) - (count2 : Int))))
        else res2
      ⟨incr.2, res3, true⟩

theorem storeIncrement_count (store : List (String × RLEntry)) (key : String)
    (resetTime now : Int) :
    assocFind (storeIncrement store key resetTime now).2 key
      = some (storeIncrement store key resetTime now).1 ∧
    (storeIncrement store key resetTime now).1.count = currentCount store key now + 1 := by
  cases hfind : assocFind store key with
  | none =>
    simp only [storeIncrement, hfind, currentCount, storeGet]
    exact ⟨assocFind_assocSet_self _ _ _, trivial⟩
  | some existing =>
    by_cases hexp : existing.resetTime ≤ now
    · simp only [storeIncrement, hfind, currentCount, storeGet, if_pos hexp]
      exact ⟨assocFind_assocSet_self _ _ _, trivial⟩
    · simp only [storeIncrement, hfind, currentCount, storeGet, if_neg hexp]
      exact ⟨assocFind_assocSet_self _ _ _, trivial⟩

/-- C5: under the default configuration (standard headers on, legacy
headers off, no skip), a request whose pre-increment count is below the
maximum increments the stored count for its key and calls next with the
X-RateLimit-Limit/Remaining/Reset headers set; a request whose
pre-increment count already equals or exceeds the maximum is answered
with the 429 RATE_LIMIT_EXCEEDED envelope carrying limit/remaining/reset
details, without calling next and with the response headers untouched;
and a request arriving at or after the stored entry's reset time replaces
the entry with count 1 and is allowed (for a positive maximum). -/
theorem rateLimit_spec :
    (∀ (windowMs : Int) (max : Nat) (message key ts rid : String) (now : Int)
       (store : List (String × RLEntry)) (res : ExpressResponse),
       currentCount store key now < max →
       ((rateLimit windowMs max message true false false key ts rid now store res).nextCalled
          = true ∧
        assocFind (rateLimit windowMs max message true false false key ts rid now store
            res).store key = some (storeIncrement store key (now + windowMs) now).1 ∧
        (storeIncrement store key (now + windowMs) now).1.count
          = currentCount store key now + 1 ∧
        assocFind (rateLimit windowMs max message true false false key ts rid now store
            res).res.headers "X-RateLimit-Limit" = some (toString max) ∧
        assocFind (rateLimit windowMs max message true false false key ts rid now store
            res).res.headers "X-RateLimit-Remaining"
          = some (toString (mathMax 0 ((max : Int) - ((currentCount store key now + 1 : Nat) : Int)))) ∧
        assocFind (rateLimit windowMs max message true false false key ts rid now store
            res).res.headers "X-RateLimit-Reset"
          = some (toString (Int.fdiv (now + windowMs) 1000)))) ∧
    (∀ (windowMs : Int) (max : Nat) (message key ts rid : String) (now : Int)
       (store : List (String × RLEntry)) (res : ExpressResponse),
       max ≤ currentCount store key now →
       (rateLimit windowMs max message true false false key ts rid now store res
          = ⟨store, resJson (resStatus res 429)
              (rateLimitEnvelope message max (now + windowMs) ts rid), false⟩ ∧
        (rateLimit windowMs max message true false false key ts rid now store
            res).res.headers = res.headers ∧
        (rateLimit windowMs max message true false false key ts rid now store
            res).res.statusCode = 429 ∧
        ∃ errObj, getField (rateLimitEnvelope message max (now + windowMs) ts rid) "error"
            = some errObj ∧
          getField errObj "code" = some (.str "RATE_LIMIT_EXCEEDED") ∧
          ∃ details, getField errObj "details" = some details ∧
            getField details "limit" = some (.num max) ∧
            getField details "remaining" = some (.num 0) ∧
            (getField details "resetTime").isSome = true)) ∧
    (∀ (windowMs : Int) (max : Nat) (message key ts rid : String) (now : Int)
       (store : List (String × RLEntry)) (res : ExpressResponse) (e : RLEntry),
       assocFind store key = some e → e.resetTime ≤ now → 0 < max →
       ((rateLimit windowMs max message true false false key ts rid now store res).nextCalled
          = true ∧
        assocFind (rateLimit windowMs max message true false false key ts rid now store
            res).store key = some ⟨1, now + windowMs⟩)) := by
  refine ⟨?_, ?_, ?_⟩
  · intro windowMs max message key ts rid now store res hlt
    have hnotle : ¬ max ≤ currentCount store key now := not_le.mpr hlt
    obtain ⟨hfind, hcount⟩ := storeIncrement_count store key (now + windowMs) now
    have hout : rateLimit windowMs max message true false false key ts rid now store res
        = ⟨(storeIncrement store key (now + windowMs) now).2,
           resSet (resSet (resSet res "X-RateLimit-Limit" (toString max))
               "X-RateLimit-Remaining"
               (toString (mathMax 0 ((max : Int)
                 - ((storeIncrement store key (now + windowMs) now).1.count : Int)))))
             "X-RateLimit-Reset" (toString (Int.fdiv (now + windowMs) 1000)),
           true⟩ := by
      simp [rateLimit, hnotle]
    rw [hout]
    refine ⟨rfl, hfind, hcount, ?_, ?_, ?_⟩
    · show assocFind (assocSet (assocSet (assocSet res.headers _ _) _ _) _ _)
        "X-RateLimit-Limit" = some (toString max)
      rw [assocFind_assocSet_ne _ _ _ _ (by decide),
        assocFind_assocSet_ne _ _ _ _ (by decide), assocFind_assocSet_self]
    · show assocFind (assocSet (assocSet (assocSet res.headers _ _) _ _) _ _)
        "X-RateLimit-Remaining" = _
      rw [assocFind_assocSet_ne _ _ _ _ (by decide), assocFind_assocSet_self, hcount]
    · show assocFind (assocSet (assocSet (assocSet res.headers _ _) _ _) _ _)
        "X-RateLimit-Reset" = _
      rw [assocFind_assocSet_self]
  · intro windowMs max message key ts rid now store res hle
    have hout : rateLimit windowMs max message true false false key ts rid now store res
        = ⟨store, resJson (resStatus res 429)
            (rateLimitEnvelope message max (now + windowMs) ts rid), false⟩ := by
      simp [rateLimit, hle]
    rw [hout]
    refine ⟨rfl, rfl, rfl, ?_⟩
    exact ⟨Json.obj [("code", .str "RATE_LIMIT_EXCEEDED"), ("message", .str message),
      ("details", Json.obj [("limit", .num max), ("remaining", .num 0),
        ("resetTime", .str (toString (now + windowMs)))])], rfl, rfl,
      Json.obj [("limit", .num max), ("remaining", .num 0),
        ("resetTime", .str (toString (now + windowMs)))], rfl, rfl, rfl, rfl⟩
  · intro windowMs max message key ts rid now store res e hfind hexp hpos
    have hcc : currentCount store key now = 0 := by
      simp [currentCount, storeGet, hfind, hexp]
    have hnotle : ¬ max ≤ currentCount store key now := by omega
    have hstore2 : (storeIncrement store key (now + windowMs) now).2
        = assocSet store key ⟨1, now + windowMs⟩ := by
      simp [storeIncrement, hfind, hexp]
    have hout : (rateLimit windowMs max message true false false key ts rid now store
        res).nextCalled = true ∧ (rateLimit windowMs max message true false false key ts rid
        now store res).store = (storeIncrement store key (now + windowMs) now).2 := by
      constructor <;> simp [rateLimit, hnotle]
    refine ⟨hout.1, ?_⟩
    rw [hout.2, hstore2]
    exact assocFind_assocSet_self _ _ _

/-- C5 witness: from an empty store with maximum 2 and window 1000 at
time 0, the first request is allowed and stores count 1; with the stored
entry at the maximum, a request is rejected with 429; and at time 1000
(the stored reset time) the entry is replaced by count 1 and allowed. -/
theorem rateLimit_spec_witness :
    (rateLimit 1000 2 "Too many" true false false "ip" "t" "r" 0 [] createResponse).nextCalled
      = true ∧
    (rateLimit 1000 2 "Too many" true false false "ip" "t" "r" 10
        [("ip", ⟨2, 1000⟩)] createResponse).res.statusCode = 429 ∧
    assocFind (rateLimit 1000 2 "Too many" true false false "ip" "t" "r" 1000
        [("ip", ⟨2, 1000⟩)] createResponse).store "ip" = some ⟨1, 2000⟩ :=
  ⟨(rateLimit_spec.1 1000 2 "Too many" "ip" "t" "r" 0 [] createResponse (by decide)).1,
   (rateLimit_spec.2.1 1000 2 "Too many" "ip" "t" "r" 10 [("ip", ⟨2, 1000⟩)] createResponse
      (by decide)).2.2.1,
   (rateLimit_spec.2.2 1000 2 "Too many" "ip" "t" "r" 1000 [("ip", ⟨2, 1000⟩)] createResponse
      ⟨2, 1000⟩ (by decide) (by decide) (by decide)).2⟩

/-
  Authentication middleware: decodeJWT, extractToken and authenticate from
  src/netlify/shared/lib/middleware/auth.middleware.ts. The composition of
  atob and JSON.parse applied to the middle token part (both runtime
  builtins, not repository code) is a parameter producing an optional
  JSON value; everything the repository code does around it is embedded.
-/

/-- The base64-alphabet pre-check the source applies to the payload part
before decoding (letters, digits, plus, slash, equals). -/
def base64CharsetOk (s : String) : Bool :=
  s.toList.all (fun c => c.isAlpha || c.isDigit || c = Char.ofNat 43
    || c = Char.ofNat 47 || c = Char.ofNat 61)

/-- decodeJWT: three dot-separated parts, charset pre-check on the middle
part, decode it to JSON, require an object carrying string userId, email
and role and numeric iat and exp, and reject when the current time has
reached exp interpreted in epoch seconds. Arrays pass the source's typeof
check but fail the field checks, so every non-object decode yields null
here exactly as in the source. -/
def decodeJWT (parseB64Json : String → Option Json) (nowMs : Int) (token : String) :
    Option JWTPayload :=
  let parts := jsSplit (Char.ofNat 46) token
  if parts.length ≠ 3 then none
  else
    let payloadB64 := parts.getD 1 ""
    if ¬ base64CharsetOk payloadB64 then none
    else
      match parseB64Json payloadB64 with
      | none => none
      | some j =>
        match j with
        | .obj fields =>
          match assocFind fields "userId", assocFind fields "email", assocFind fields "role",
              assocFind fields "iat", assocFind fields "exp" with
          | some (.str userId), some (.str email), some (.str role),
            some (.num iat), some (.num exp) =>
            if exp * 1000 ≤ nowMs then none
            else some ⟨userId, email, role, iat, exp⟩
          | _, _, _, _, _ => none
        | _ => none

/-- Case-insensitive header lookup (the JavaScript Headers object
normalizes header names). -/
def headerGet (headers : List (String × String)) (k : String) : Option String :=
  match headers.find? (fun p => jsLower p.1 = jsLower k) with
  | some p => some p.2
  | none => none

/-- extractToken: read the Authorization header (case-insensitively, as
both source lookups hit the same normalized Headers entry), reject blank
headers, split on a space and require exactly the two parts Bearer and
the token. -/
def extractToken (headers : List (String × String)) : Option String :=
  match headerGet headers "Authorization" with
  | none => none
  | some authHeader =>
    if jsTrim authHeader = "" then none
    else
      let parts := jsSplit (Char.ofNat 32) authHeader
      if parts.length = 2 ∧ parts.getD 0 "" = "Bearer" then some (parts.getD 1 "")
      else none

/-- The 401 AUTH_TOKEN_MISSING envelope. -/
def authTokenMissingEnvelope (timestamp : String) : Json :=
  Json.obj [("status", .str "error"),
    ("error", Json.obj [("code", .str "AUTH_TOKEN_MISSING"),
      ("message", .str "Authorization token is required")]),
    ("metadata", Json.obj [("timestamp", .str timestamp), ("processingTimeMs", .num 0)])]

/-- The 401 AUTH_TOKEN_INVALID envelope. -/
def authTokenInvalidEnvelope (timestamp : String) : Json :=
  Json.obj [("status", .str "error"),
    ("error", Json.obj [("code", .str "AUTH_TOKEN_INVALID"),
      ("message", .str "Invalid or expired token")]),
    ("metadata", Json.obj [("timestamp", .str timestamp), ("processingTimeMs", .num 0)])]

/-- Result of one pass of the authenticate middleware. -/
structure AuthResult where
  req : ExpressRequest
  res : ExpressResponse
  nextCalled : Bool

/-- The token the middleware considers present: extractToken's result
unless it is absent or the empty string (which is falsy in the source's
if-not-token test). -/
def presentToken (headers : List (String × String)) : Option String :=
  match extractToken headers with
  | some t => if t = "" then none else some t
  | none => none

/-- authenticate(required): no present token is rejected with 401
AUTH_TOKEN_MISSING when required and passed through untouched otherwise;
a present token that fails decodeJWT is rejected with 401
AUTH_TOKEN_INVALID regardless of the flag; a decoded payload is attached
to the request as user and next runs. -/
def authenticate (required : Bool) (parseB64Json : String → Option Json) (nowMs : Int)
    (timestamp : String) (req : ExpressRequest) (res : ExpressResponse) : AuthResult :=
  match presentToken req.headers with
  | none =>
    if required then
      ⟨req, resJson (resStatus res 401) (authTokenMissingEnvelope timestamp), false⟩
    else ⟨req, res, true⟩
  | some t =>
    match decodeJWT parseB64Json nowMs t with
    | none => ⟨req, resJson (resStatus res 401) (authTokenInvalidEnvelope timestamp), false⟩
    | some payload => ⟨{ req with user := some payload }, res, true⟩

/-- A concrete model of the base64+JSON decoding builtin used by
witnesses: every input decodes to one fixed valid claims object. -/
def sampleParse : String → Option Json := fun _ =>
  some (Json.obj [("userId", .str "u1"), ("email", .str "e@x"), ("role", .str "admin"),
    ("iat", .num 0), ("exp", .num 100)])

/-- C6: with no present bearer token, authenticate(true) answers 401
AUTH_TOKEN_MISSING and authenticate(false) calls next without touching
the request; with a present token that decodeJWT rejects, it answers 401
AUTH_TOKEN_INVALID regardless of the required flag; with a decoded
payload it attaches exactly that payload as the request user and calls
next; and decodeJWT rejects tokens without exactly three dot-separated
parts, rejects a decoded object missing the userId claim, and rejects a
decoded object with all five claims well-typed whose exp in epoch seconds
is at or before the current time. -/
theorem authenticate_spec :
    (∀ (parse : String → Option Json) (nowMs : Int) (ts : String)
       (req : ExpressRequest) (res : ExpressResponse),
       presentToken req.headers = none →
       (authenticate true parse nowMs ts req res
          = ⟨req, resJson (resStatus res 401) (authTokenMissingEnvelope ts), false⟩ ∧
        authenticate false parse nowMs ts req res = ⟨req, res, true⟩ ∧
        ∃ errObj, getField (authTokenMissingEnvelope ts) "error" = some errObj ∧
          getField errObj "code" = some (.str "AUTH_TOKEN_MISSING"))) ∧
    (∀ (parse : String → Option Json) (nowMs : Int) (ts : String)
       (req : ExpressRequest) (res : ExpressResponse) (t : String) (required : Bool),
       presentToken req.headers = some t → decodeJWT parse nowMs t = none →
       (authenticate required parse nowMs ts req res
          = ⟨req, resJson (resStatus res 401) (authTokenInvalidEnvelope ts), false⟩ ∧
        ∃ errObj, getField (authTokenInvalidEnvelope ts) "error" = some errObj ∧
          getField errObj "code" = some (.str "AUTH_TOKEN_INVALID"))) ∧
    (∀ (parse : String → Option Json) (nowMs : Int) (ts : String)
       (req : ExpressRequest) (res : ExpressResponse) (t : String) (payload : JWTPayload)
       (required : Bool),
       presentToken req.headers = some t → decodeJWT parse nowMs t = some payload →
       authenticate required parse nowMs ts req res
         = ⟨{ req with user := some payload }, res, true⟩) ∧
    (∀ (parse : String → Option Json) (nowMs : Int) (token : String),
       (jsSplit (Char.ofNat 46) token).length ≠ 3 →
       decodeJWT parse nowMs token = none) ∧
    (∀ (parse : String → Option Json) (nowMs : Int) (token : String)
       (fields : List (String × Json)),
       parse ((jsSplit (Char.ofNat 46) token).getD 1 "") = some (.obj fields) →
       assocFind fields "userId" = none →
       decodeJWT parse nowMs token = none) ∧
    (∀ (parse : String → Option Json) (nowMs : Int) (token : String)
       (fields : List (String × Json)) (uid em rl : String) (iat e : Int),
       parse ((jsSplit (Char.ofNat 46) token).getD 1 "") = some (.obj fields) →
       assocFind fields "userId" = some (.str uid) →
       assocFind fields "email" = some (.str em) →
       assocFind fields "role" = some (.str rl) →
       assocFind fields "iat" = some (.num iat) →
       assocFind fields "exp" = some (.num e) →
       e * 1000 ≤ nowMs →
       decodeJWT parse nowMs token = none) := by
  refine ⟨?_, ?_, ?_, ?_, ?_, ?_⟩
  · intro parse nowMs ts req res hnone
    refine ⟨?_, ?_, ?_⟩
    · simp [authenticate, hnone]
    · simp [authenticate, hnone]
    · exact ⟨Json.obj [("code", .str "AUTH_TOKEN_MISSING"),
        ("message", .str "Authorization token is required")], rfl, rfl⟩
  · intro parse nowMs ts req res t required hsome hdec
    refine ⟨?_, ?_⟩
    · simp [authenticate, hsome, hdec]
    · exact ⟨Json.obj [("code", .str "AUTH_TOKEN_INVALID"),
        ("message", .str "Invalid or expired token")], rfl, rfl⟩
  · intro parse nowMs ts req res t payload required hsome hdec
    simp [authenticate, hsome, hdec]
  · intro parse nowMs token hlen
    simp [decodeJWT, hlen]
  · intro parse nowMs token fields hparse huid
    simp only [List.getD_eq_getElem?_getD] at hparse
    by_cases hlen : (jsSplit (Char.ofNat 46) token).length ≠ 3
    · simp [decodeJWT, hlen]
    · by_cases hchar : base64CharsetOk (((jsSplit (Char.ofNat 46) token)[1]?).getD "")
      · simp [decodeJWT, hlen, hchar, hparse, huid]
      · simp [decodeJWT, hlen, hchar]
  · intro parse nowMs token fields uid em rl iat e hparse huid hemail hrole hiat hexp hexpired
    simp only [List.getD_eq_getElem?_getD] at hparse
    by_cases hlen : (jsSplit (Char.ofNat 46) token).length ≠ 3
    · simp [decodeJWT, hlen]
    · by_cases hchar : base64CharsetOk (((jsSplit (Char.ofNat 46) token)[1]?).getD "")
      · simp [decodeJWT, hlen, hchar, hparse, huid, hemail, hrole, hiat, hexp, hexpired]
      · simp [decodeJWT, hlen, hchar]

/-- C6 witness: with headers carrying "Bearer a.b.c" and a decode builtin
yielding a valid unexpired claims object, authenticate attaches exactly
the decoded claims; with no Authorization header and required true it
answers 401. -/
theorem authenticate_spec_witness :
    authenticate true sampleParse 0 "t"
        { sampleReq with headers := [("authorization", "Bearer a.b.c")] } createResponse
      = ⟨{ { sampleReq with headers := [("authorization", "Bearer a.b.c")] } with
           user := some ⟨"u1", "e@x", "admin", 0, 100⟩ }, createResponse, true⟩ ∧
    (authenticate true sampleParse 0 "t" sampleReq createResponse).res.statusCode = 401 :=
  ⟨authenticate_spec.2.2.1 sampleParse 0 "t"
      { sampleReq with headers := [("authorization", "Bearer a.b.c")] } createResponse
      "a.b.c" ⟨"u1", "e@x", "admin", 0, 100⟩ true (by decide) (by decide),
   by
     rw [(authenticate_spec.1 sampleParse 0 "t" sampleReq createResponse (by decide)).1]
     rfl⟩

/-
  Validation middleware: validateValue, validateData, validateAll,
  validateBody, validateQuery and validateParams from
  src/netlify/shared/middleware/validation.middleware.ts. A regular
  expression rule is modelled by its test predicate (RegExp is a runtime
  builtin); JSON numbers are integers here, so the source's isNaN and
  Number.isInteger branches cannot fire.
-/

/-- A declarative validation rule (the source's tagged rule union). -/
inductive ValidationRule where
  | string (required : Bool) (minLength maxLength : Option Nat)
      (patternOk : Option (String → Bool)) : ValidationRule
  | number (required : Bool) (minV maxV : Option Int) (integer : Bool) : ValidationRule
  | boolean (required : Bool) : ValidationRule
  | array (required : Bool) (items : Option ValidationRule) : ValidationRule
  | object (required : Bool) (properties : List (String × ValidationRule)) : ValidationRule

/-- The required flag of a rule. -/
def ruleRequired : ValidationRule → Bool
  | .string required _ _ _ => required
  | .number required _ _ _ => required
  | .boolean required => required
  | .array required _ => required
  | .object required _ => required

/-- The source's value === undefined || value === null test (undefined is
the absent Option, null is the JSON null). -/
def valueAbsent : Option Json → Bool
  | none => true
  | some .null => true
  | some _ => false

/-- One collected violation: field path, message, machine code and the
offending value. -/
structure ValidationErrorItem where
  field : String
  message : String
  code : String
  value : Option Json
deriving Repr

mutual
/-- validateValue: required check first, then the type-specific checks in
source order, returning the first violation found for this value. -/
def validateValue (value : Option Json) (rule : ValidationRule) (fieldName : String) :
    Option ValidationErrorItem :=
  if ruleRequired rule && valueAbsent value then
    some ⟨fieldName, fieldName ++ " is required", "REQUIRED_FIELD_MISSING", value⟩
  else if !ruleRequired rule && valueAbsent value then none
  else
    match rule with
    | .string _ minLength maxLength patternOk =>
      match value with
      | some (.str s) =>
        (match minLength with
          | some m =>
            if s.length < m then
              some ⟨fieldName,
                fieldName ++ " must be at least " ++ toString m ++ " characters",
                "STRING_TOO_SHORT", value⟩
            else none
          | none => none)
        <|>
        (match maxLength with
          | some m =>
            if s.length > m then
              some ⟨fieldName,
                fieldName ++ " must be no more than " ++ toString m ++ " characters",
                "STRING_TOO_LONG", value⟩
            else none
          | none => none)
        <|>
        (match patternOk with
          | some test =>
            if ¬ test s then
              some ⟨fieldName, fieldName ++ " format is invalid", "INVALID_FORMAT", value⟩
            else none
          | none => none)
      | _ => some ⟨fieldName, fieldName ++ " must be a string", "INVALID_TYPE", value⟩
    | .number _ minV maxV _ =>
      match value with
      | some (.num nv) =>
        (match minV with
          | some m =>
            if nv < m then
              some ⟨fieldName, fieldName ++ " must be at least " ++ toString m,
                "NUMBER_TOO_SMALL", value⟩
            else none
          | none => none)
        <|>
        (match maxV with
          | some m =>
            if nv > m then
              some ⟨fieldName, fieldName ++ " must be no more than " ++ toString m,
                "NUMBER_TOO_LARGE", value⟩
            else none
          | none => none)
      | _ => some ⟨fieldName, fieldName ++ " must be a valid number", "INVALID_TYPE", value⟩
    | .boolean _ =>
      match value with
      | some (.bool _) => none
      | _ => some ⟨fieldName, fieldName ++ " must be a boolean", "INVALID_TYPE", value⟩
    | .array _ items =>
      match value with
      | some (.arr elems) =>
        match items with
        | some itemRule => validateItems itemRule elems fieldName 0
        | none => none
      | _ => some ⟨fieldName, fieldName ++ " must be an array", "INVALID_TYPE", value⟩
    | .object _ properties =>
      match value with
      | some (.obj objFields) => validateProps properties objFields fieldName
      | _ => some ⟨fieldName, fieldName ++ " must be an object", "INVALID_TYPE", value⟩
termination_by (sizeOf rule, sizeOf (value.getD Json.null))

/-- The source's indexed walk over array items, stopping at the first
violating item. -/
def validateItems (itemRule : ValidationRule) (elems : List Json) (fieldName : String)
    (i : Nat) : Option ValidationErrorItem :=
  match elems with
  | [] => none
  | x :: xs =>
    match validateValue (some x) itemRule (fieldName ++ "[" ++ toString i ++ "]") with
    | some err => some err
    | none => validateItems itemRule xs fieldName (i + 1)
termination_by (sizeOf itemRule, sizeOf elems)

/-- The source's walk over declared object properties, stopping at the
first violating property. -/
def validateProps (properties : List (String × ValidationRule))
    (objFields : List (String × Json)) (fieldName : String) : Option ValidationErrorItem :=
  match properties with
  | [] => none
  | (k, childRule) :: rest =>
    match validateValue (assocFind objFields k) childRule (fieldName ++ "." ++ k) with
    | some err => some err
    | none => validateProps rest objFields fieldName
termination_by (sizeOf properties, 0)
end

/-- The error list validateData collects: one entry per schema field whose
validateValue fails, in schema order, never stopping early. -/
def validateDataErrors (data : List (String × Json)) :
    List (String × ValidationRule) → List ValidationErrorItem
  | [] => []
  | (fieldName, rule) :: rest =>
    match validateValue (assocFind data fieldName) rule fieldName with
    | some err => err :: validateDataErrors data rest
    | none => validateDataErrors data rest

/-- validateData's result record. -/
structure ValidationResult where
  isValid : Bool
  errors : List ValidationErrorItem

/-- validateData: walk every schema entry and collect every violation. -/
def validateData (data : List (String × Json)) (schema : List (String × ValidationRule)) :
    ValidationResult :=
  ⟨(validateDataErrors data schema).isEmpty, validateDataErrors data schema⟩

/-- JavaScript truthiness of a JSON value. -/
def jsTruthy : Json → Bool
  | .null => false
  | .bool b => b
  | .num n => n ≠ 0
  | .str s => s ≠ ""
  | .arr _ => true
  | .obj _ => true

/-- Property access on an arbitrary value cast to a record: only objects
expose fields (indexing anything else with a field name yields undefined
in JavaScript). -/
def asRecord : Json → List (String × Json)
  | .obj fields => fields
  | _ => []

/-- typeof v === 'object' (true for objects, arrays and null). -/
def jsIsObjectType : Json → Bool
  | .obj _ => true
  | .arr _ => true
  | .null => true
  | _ => false

/-- validateAll's section prefixing of collected error field paths. -/
def prefixErrors (pfx : String) (es : List ValidationErrorItem) : List ValidationErrorItem :=
  es.map (fun err => { err with field := pfx ++ err.field })

/-- Query and params maps carry strings; validation sees them as JSON
string values. -/
def queryToJson (q : List (String × String)) : List (String × Json) :=
  q.map (fun kv => (kv.1, Json.str kv.2))

/-- The serialized form of a violation (an absent offending value is the
undefined property JSON.stringify drops). -/
def errorItemJson (err : ValidationErrorItem) : Json :=
  Json.obj ([("field", .str err.field), ("message", .str err.message),
    ("code", .str err.code)]
    ++ (match err.value with
        | some v => [("value", v)]
        | none => []))

/-- The 400 envelope the validation middleware sends, parameterized by the
middleware-specific code and message. -/
def validationFailedEnvelope (code message : String) (errors : List ValidationErrorItem)
    (timestamp : String) : Json :=
  Json.obj [("status", .str "error"),
    ("error", Json.obj [("code", .str code), ("message", .str message),
      ("details", Json.obj [("errors", Json.arr (errors.map errorItemJson))])]),
    ("metadata", Json.obj [("timestamp", .str timestamp), ("processingTimeMs", .num 0)])]

/-- The 400 INVALID_BODY envelope of validateBody. -/
def invalidBodyEnvelope (timestamp : String) : Json :=
  Json.obj [("status", .str "error"),
    ("error", Json.obj [("code", .str "INVALID_BODY"),
      ("message", .str "Request body must be a valid JSON object")]),
    ("metadata", Json.obj [("timestamp", .str timestamp), ("processingTimeMs", .num 0)])]

/-- Result of one pass of a validation middleware. -/
structure ValidateOutcome where
  res : ExpressResponse
  nextCalled : Bool
deriving Repr

/-- The violations validateAll aggregates: the body section only when a
truthy body is present, then the query section, then the params section,
each with its field-path prefix. -/
def validateAllErrors (bodySchema querySchema paramsSchema :
    Option (List (String × ValidationRule))) (req : ExpressRequest) :
    List ValidationErrorItem :=
  (match bodySchema, req.body with
   | some sch, some b =>
     if jsTruthy b then prefixErrors "body." (validateData (asRecord b) sch).errors else []
   | _, _ => [])
  ++ (match querySchema with
      | some sch => prefixErrors "query." (validateData (queryToJson req.query) sch).errors
      | none => [])
  ++ (match paramsSchema with
      | some sch => prefixErrors "params." (validateData (queryToJson req.params) sch).errors
      | none => [])

/-- validateAll: aggregate the violations of every configured section and
answer 400 VALIDATION_FAILED with the full list when any exist, else call
next. -/
def validateAll (bodySchema querySchema paramsSchema :
    Option (List (String × ValidationRule))) (timestamp : String)
    (req : ExpressRequest) (res : ExpressResponse) : ValidateOutcome :=
  let errors := validateAllErrors bodySchema querySchema paramsSchema req
  if errors.length > 0 then
    ⟨resJson (resStatus res 400)
      (validationFailedEnvelope "VALIDATION_FAILED" "Request validation failed"
        errors timestamp), false⟩
  else ⟨res, true⟩

/-- validateBody: reject bodies that are absent, falsy or not of object
type with INVALID_BODY; otherwise validate and answer 400
VALIDATION_FAILED with every violation, or call next. -/
def validateBody (schema : List (String × ValidationRule)) (timestamp : String)
    (req : ExpressRequest) (res : ExpressResponse) : ValidateOutcome :=
  match req.body with
  | none => ⟨resJson (resStatus res 400) (invalidBodyEnvelope timestamp), false⟩
  | some b =>
    if ¬ jsTruthy b ∨ ¬ jsIsObjectType b then
      ⟨resJson (resStatus res 400) (invalidBodyEnvelope timestamp), false⟩
    else
      let result := validateData (asRecord b) schema
      if ¬ result.isValid then
        ⟨resJson (resStatus res 400)
          (validationFailedEnvelope "VALIDATION_FAILED" "Request validation failed"
            result.errors timestamp), false⟩
      else ⟨res, true⟩

/-- validateQuery: the query record is always an object, so only the
validation branch is reachable; failures use the QUERY_VALIDATION_FAILED
code. -/
def validateQuery (schema : List (String × ValidationRule)) (timestamp : String)
    (req : ExpressRequest) (res : ExpressResponse) : ValidateOutcome :=
  let result := validateData (queryToJson req.query) schema
  if ¬ result.isValid then
    ⟨resJson (resStatus res 400)
      (validationFailedEnvelope "QUERY_VALIDATION_FAILED"
        "Query parameter validation failed" result.errors timestamp), false⟩
  else ⟨res, true⟩

/-- validateParams: the params record is always an object, so only the
validation branch is reachable; failures use the PARAMS_VALIDATION_FAILED
code. -/
def validateParams (schema : List (String × ValidationRule)) (timestamp : String)
    (req : ExpressRequest) (res : ExpressResponse) : ValidateOutcome :=
  let result := validateData (queryToJson req.params) schema
  if ¬ result.isValid then
    ⟨resJson (resStatus res 400)
      (validationFailedEnvelope "PARAMS_VALIDATION_FAILED"
        "Route parameter validation failed" result.errors timestamp), false⟩
  else ⟨res, true⟩

theorem validateDataErrors_eq_filterMap (data : List (String × Json)) :
    ∀ schema : List (String × ValidationRule),
      validateDataErrors data schema
        = schema.filterMap (fun kv => validateValue (assocFind data kv.1) kv.2 kv.1) := by
  intro schema
  induction schema with
  | nil => rfl
  | cons hd tl ih =>
    obtain ⟨k, rule⟩ := hd
    cases hv : validateValue (assocFind data k) rule k with
    | some err => simp [validateDataErrors, hv, ih, List.filterMap_cons]
    | none => simp [validateDataErrors, hv, ih, List.filterMap_cons]

/-- C8 (amended): validateData collects one violation (field path,
message, machine code, offending value) for every schema field whose
check fails, never stopping at the first failing field; validateAll
aggregates the body, query and params sections with field-path prefixes
and answers 400 with error.code VALIDATION_FAILED and the full violation
list exactly when at least one violation exists, calling next otherwise;
validateBody also answers VALIDATION_FAILED, but validateQuery answers
QUERY_VALIDATION_FAILED and validateParams answers
PARAMS_VALIDATION_FAILED rather than VALIDATION_FAILED. -/
theorem validation_spec :
    (∀ (data : List (String × Json)) (schema : List (String × ValidationRule)),
       validateDataErrors data schema
         = schema.filterMap (fun kv => validateValue (assocFind data kv.1) kv.2 kv.1)) ∧
    (∀ err : ValidationErrorItem,
       getField (errorItemJson err) "field" = some (.str err.field) ∧
       getField (errorItemJson err) "message" = some (.str err.message) ∧
       getField (errorItemJson err) "code" = some (.str err.code) ∧
       ∀ v, err.value = some v → getField (errorItemJson err) "value" = some v) ∧
    (∀ (b q p : Option (List (String × ValidationRule))) (ts : String)
       (req : ExpressRequest) (res : ExpressResponse),
       ((validateAll b q p ts req res).nextCalled = true ↔ validateAllErrors b q p req = []) ∧
       (validateAllErrors b q p req ≠ [] →
         validateAll b q p ts req res
           = ⟨resJson (resStatus res 400)
               (validationFailedEnvelope "VALIDATION_FAILED" "Request validation failed"
                 (validateAllErrors b q p req) ts), false⟩ ∧
         (validateAll b q p ts req res).res.statusCode = 400 ∧
         ∃ errObj, getField (validationFailedEnvelope "VALIDATION_FAILED"
             "Request validation failed" (validateAllErrors b q p req) ts) "error"
             = some errObj ∧
           getField errObj "code" = some (.str "VALIDATION_FAILED") ∧
           getField errObj "details" = some (Json.obj [("errors",
             Json.arr ((validateAllErrors b q p req).map errorItemJson))]))) ∧
    (∀ (schema : List (String × ValidationRule)) (ts : String)
       (req : ExpressRequest) (res : ExpressResponse),
       ((validateData (queryToJson req.query) schema).isValid = false →
         validateQuery schema ts req res
           = ⟨resJson (resStatus res 400)
               (validationFailedEnvelope "QUERY_VALIDATION_FAILED"
                 "Query parameter validation failed"
                 (validateData (queryToJson req.query) schema).errors ts), false⟩) ∧
       ((validateData (queryToJson req.query) schema).isValid = true →
         validateQuery schema ts req res = ⟨res, true⟩) ∧
       ((validateData (queryToJson req.params) schema).isValid = false →
         validateParams schema ts req res
           = ⟨resJson (resStatus res 400)
               (validationFailedEnvelope "PARAMS_VALIDATION_FAILED"
                 "Route parameter validation failed"
                 (validateData (queryToJson req.params) schema).errors ts), false⟩) ∧
       (∀ bf, req.body = some (Json.obj bf) →
         (validateData bf schema).isValid = false →
         validateBody schema ts req res
           = ⟨resJson (resStatus res 400)
               (validationFailedEnvelope "VALIDATION_FAILED" "Request validation failed"
                 (validateData bf schema).errors ts), false⟩)) := by
  refine ⟨validateDataErrors_eq_filterMap, ?_, ?_, ?_⟩
  · intro err
    refine ⟨?_, ?_, ?_, ?_⟩
    · cases hv : err.value <;> simp [errorItemJson, getField, assocFind, hv]
    · cases hv : err.value <;> simp [errorItemJson, getField, assocFind, hv]
    · cases hv : err.value <;> simp [errorItemJson, getField, assocFind, hv]
    · intro v hv
      simp [errorItemJson, getField, assocFind, hv]
  · intro b q p ts req res
    constructor
    · constructor
      · intro hnext
        by_contra hne
        have hlen : 0 < (validateAllErrors b q p req).length := List.length_pos.mpr hne
        simp [validateAll, hlen] at hnext
      · intro heq
        simp [validateAll, heq]
    · intro hne
      have hlen : 0 < (validateAllErrors b q p req).length := List.length_pos.mpr hne
      refine ⟨?_, ?_, ?_⟩
      · simp [validateAll, hlen]
      · simp [validateAll, hlen, resJson, resStatus]
      · exact ⟨Json.obj [("code", .str "VALIDATION_FAILED"),
          ("message", .str "Request validation failed"),
          ("details", Json.obj [("errors",
            Json.arr ((validateAllErrors b q p req).map errorItemJson))])], rfl, rfl, rfl⟩
  · intro schema ts req res
    refine ⟨?_, ?_, ?_, ?_⟩
    · intro hinv
      simp [validateQuery, hinv]
    · intro hval
      simp [validateQuery, hval]
    · intro hinv
      simp [validateParams, hinv]
    · intro bf hbody hinv
      simp [validateBody, hbody, jsTruthy, jsIsObjectType, asRecord, hinv]

/-- C8 witness: a schema demanding a required numeric page and a required
string id against a request carrying neither collects both violations
(one per failing field) and validateAll answers 400 VALIDATION_FAILED
with the full two-element list. -/
theorem validation_spec_witness :
    validateDataErrors []
        [("page", ValidationRule.number true none none false),
         ("id", ValidationRule.string true none none none)]
      = [("page", ValidationRule.number true none none false),
         ("id", ValidationRule.string true none none none)].filterMap
          (fun kv => validateValue (assocFind [] kv.1) kv.2 kv.1) ∧
    (validateAll none (some [("page", ValidationRule.number true none none false),
        ("id", ValidationRule.string true none none none)]) none "ts" sampleReq
        createResponse).res.statusCode = 400 :=
  ⟨validation_spec.1 [] _,
   ((validation_spec.2.2.1 none (some [("page", ValidationRule.number true none none false),
        ("id", ValidationRule.string true none none none)]) none "ts" sampleReq
      createResponse).2 (by
        have h2 : validateAllErrors none (some [("page",
            ValidationRule.number true none none false),
            ("id", ValidationRule.string true none none none)]) none sampleReq
            = [⟨"query.page", "page is required", "REQUIRED_FIELD_MISSING", none⟩,
               ⟨"query.id", "id is required", "REQUIRED_FIELD_MISSING", none⟩] := by
          simp [validateAllErrors, validateData, validateDataErrors, validateValue,
            queryToJson, prefixErrors, sampleReq, assocFind, ruleRequired, valueAbsent]
        rw [h2]
        simp)).2.1⟩

/-- The machine code inside an envelope's error object. -/
def envErrorCode (j : Json) : Option Json :=
  match getField j "error" with
  | some errObj => getField errObj "code"
  | none => none

/-- C8 counterexample: checking a request with an empty query against a
schema requiring a numeric page, validateQuery responds 400 with a
violation list, but the envelope's machine code is
QUERY_VALIDATION_FAILED, not the claimed VALIDATION_FAILED. -/
theorem validateQuery_code_mismatch :
    (validateQuery [("page", ValidationRule.number true none none false)] "ts" sampleReq
        createResponse).nextCalled = false ∧
    (validateQuery [("page", ValidationRule.number true none none false)] "ts" sampleReq
        createResponse).res.statusCode = 400 ∧
    (validateQuery [("page", ValidationRule.number true none none false)] "ts" sampleReq
        createResponse).res.body
      = Json.stringify (validationFailedEnvelope "QUERY_VALIDATION_FAILED"
          "Query parameter validation failed"
          [⟨"page", "page is required", "REQUIRED_FIELD_MISSING", none⟩] "ts") ∧
    envErrorCode (validationFailedEnvelope "QUERY_VALIDATION_FAILED"
        "Query parameter validation failed"
        [⟨"page", "page is required", "REQUIRED_FIELD_MISSING", none⟩] "ts")
      = some (Json.str "QUERY_VALIDATION_FAILED") ∧
    ¬ envErrorCode (validationFailedEnvelope "QUERY_VALIDATION_FAILED"
        "Query parameter validation failed"
        [⟨"page", "page is required", "REQUIRED_FIELD_MISSING", none⟩] "ts")
      = some (Json.str "VALIDATION_FAILED") := by
  have hout : validateQuery [("page", ValidationRule.number true none none false)] "ts"
      sampleReq createResponse
      = ⟨resJson (resStatus createResponse 400)
          (validationFailedEnvelope "QUERY_VALIDATION_FAILED"
            "Query parameter validation failed"
            [⟨"page", "page is required", "REQUIRED_FIELD_MISSING", none⟩] "ts"), false⟩ := by
    simp [validateQuery, validateData, validateDataErrors, validateValue, queryToJson,
      sampleReq, assocFind, ruleRequired, valueAbsent]
  refine ⟨?_, ?_, ?_, rfl, ?_⟩
  · rw [hout]
  · rw [hout]; rfl
  · rw [hout]; rfl
  · simp [envErrorCode, validationFailedEnvelope, getField, assocFind]

/-
  CORS middleware: cors and setCorsHeaders from the shared cors
  middleware module (unnamed source part 003).
-/

/-- Contiguous-substring test over character lists. -/
def charsContains (needle : List Char) : List Char → Bool
  | [] => charsPrefix needle []
  | c :: t => if charsPrefix needle (c :: t) then true else charsContains needle t

/-- Model of JavaScript hay.includes(needle). -/
def jsIncludes (hay needle : String) : Bool :=
  charsContains needle.toList hay.toList

/-- The CORS origin configuration: a string (wildcard or literal) or an
explicit allow-list; the function form is skipped by the source itself. -/
inductive CorsOrigin where
  | str (s : String) : CorsOrigin
  | list (origins : List String) : CorsOrigin

/-- The non-origin CORS headers set after the origin decision:
credentials when configured, always methods and allowed headers, exposed
headers only when nonempty, max-age only when nonzero (zero is falsy). -/
def corsRestHeaders (res : ExpressResponse)
    (methods allowedHeaders exposedHeaders : List String) (credentials : Bool)
    (maxAge : Nat) : ExpressResponse :=
  let res2 := if credentials then resSet res "Access-Control-Allow-Credentials" "true" else res
  let res3 := resSet res2 "Access-Control-Allow-Methods" (String.intercalate ", " methods)
  let res4 := resSet res3 "Access-Control-Allow-Headers"
    (String.intercalate ", " allowedHeaders)
  let res5 := if exposedHeaders.length > 0 then
      resSet res4 "Access-Control-Expose-Headers" (String.intercalate ", " exposedHeaders)
    else res4
  if maxAge ≠ 0 then resSet res5 "Access-Control-Max-Age" (toString maxAge) else res5

/-- setCorsHeaders: the string configuration sets the wildcard for "*",
echoes a truthy request origin contained in the configured string, and is
skipped entirely for a falsy (empty) configuration; the allow-list
configuration echoes a truthy listed origin and otherwise sets the
literal string "null"; then the remaining headers are set. -/
def setCorsHeaders (res : ExpressResponse) (origin : CorsOrigin)
    (methods allowedHeaders exposedHeaders : List String) (credentials : Bool)
    (maxAge : Nat) (originHeader : Option String) : ExpressResponse :=
  let res1 :=
    match origin with
    | .str s =>
      if s = "" then res
      else if s = "*" then resSet res "Access-Control-Allow-Origin" "*"
      else
        match originHeader with
        | some o =>
          if o ≠ "" ∧ jsIncludes s o then resSet res "Access-Control-Allow-Origin" o else res
        | none => res
    | .list origins =>
      match originHeader with
      | some o =>
        if o ≠ "" ∧ origins.contains o then resSet res "Access-Control-Allow-Origin" o
        else resSet res "Access-Control-Allow-Origin" "null"
      | none => resSet res "Access-Control-Allow-Origin" "null"
  corsRestHeaders res1 methods allowedHeaders exposedHeaders credentials maxAge

/-- Result of one pass of the cors middleware. -/
structure CorsOutcome where
  res : ExpressResponse
  nextCalled : Bool
deriving Repr, DecidableEq

/-- cors: set the CORS headers from the request's origin header, then for
an OPTIONS request short-circuit with an empty 204 (unless configured to
continue), otherwise call next. -/
def cors (origin : CorsOrigin) (methods allowedHeaders exposedHeaders : List String)
    (credentials : Bool) (maxAge : Nat) (preflightContinue : Bool)
    (req : ExpressRequest) (res : ExpressResponse) : CorsOutcome :=
  let originHeader := headerGet req.headers "origin"
  let res2 := setCorsHeaders res origin methods allowedHeaders exposedHeaders credentials
    maxAge originHeader
  if req.method = "OPTIONS" then
    if preflightContinue then ⟨res2, true⟩
    else ⟨resSend (resStatus res2 204) "", false⟩
  else ⟨res2, true⟩

theorem corsRestHeaders_preserves_origin (res : ExpressResponse)
    (methods allowedHeaders exposedHeaders : List String) (credentials : Bool)
    (maxAge : Nat) :
    assocFind (corsRestHeaders res methods allowedHeaders exposedHeaders credentials
        maxAge).headers "Access-Control-Allow-Origin"
      = assocFind res.headers "Access-Control-Allow-Origin" := by
  by_cases hcred : credentials
  <;> by_cases hexp : exposedHeaders.length > 0
  <;> by_cases hage : maxAge ≠ 0
  <;> simp [corsRestHeaders, resSet, hcred, hexp, hage]
  <;> repeat rw [assocFind_assocSet_ne _ _ _ _ (by decide)]

/-- C9: under an explicit allow-list configuration, a nonempty request
origin contained in the list is echoed back in
Access-Control-Allow-Origin; an origin not in the list, or an absent
origin header, sets the header to the literal string "null" rather than
omitting it; the wildcard string configuration always sets "*"; and for
non-OPTIONS requests cors sets these headers and calls next. -/
theorem cors_spec :
    (∀ (origins methods allowedHeaders exposedHeaders : List String) (credentials : Bool)
       (maxAge : Nat) (res : ExpressResponse) (o : String),
       o ≠ "" → origins.contains o = true →
       assocFind (setCorsHeaders res (.list origins) methods allowedHeaders exposedHeaders
           credentials maxAge (some o)).headers "Access-Control-Allow-Origin" = some o) ∧
    (∀ (origins methods allowedHeaders exposedHeaders : List String) (credentials : Bool)
       (maxAge : Nat) (res : ExpressResponse) (o : String),
       origins.contains o = false →
       assocFind (setCorsHeaders res (.list origins) methods allowedHeaders exposedHeaders
           credentials maxAge (some o)).headers "Access-Control-Allow-Origin"
         = some "null") ∧
    (∀ (origins methods allowedHeaders exposedHeaders : List String) (credentials : Bool)
       (maxAge : Nat) (res : ExpressResponse),
       assocFind (setCorsHeaders res (.list origins) methods allowedHeaders exposedHeaders
           credentials maxAge none).headers "Access-Control-Allow-Origin" = some "null") ∧
    (∀ (methods allowedHeaders exposedHeaders : List String) (credentials : Bool)
       (maxAge : Nat) (res : ExpressResponse) (originHeader : Option String),
       assocFind (setCorsHeaders res (.str "*") methods allowedHeaders exposedHeaders
           credentials maxAge originHeader).headers "Access-Control-Allow-Origin"
         = some "*") ∧
    (∀ (origin : CorsOrigin) (methods allowedHeaders exposedHeaders : List String)
       (credentials : Bool) (maxAge : Nat) (preflightContinue : Bool)
       (req : ExpressRequest) (res : ExpressResponse),
       req.method ≠ "OPTIONS" →
       cors origin methods allowedHeaders exposedHeaders credentials maxAge
           preflightContinue req res
         = ⟨setCorsHeaders res origin methods allowedHeaders exposedHeaders credentials
             maxAge (headerGet req.headers "origin"), true⟩) := by
  refine ⟨?_, ?_, ?_, ?_, ?_⟩
  · intro origins methods ah eh cred maxAge res o ho hmem
    have hmem2 : o ∈ origins := by simpa using hmem
    simp [setCorsHeaders, ho, hmem2, corsRestHeaders_preserves_origin, resSet,
      assocFind_assocSet_self]
  · intro origins methods ah eh cred maxAge res o hmem
    have hmem2 : o ∉ origins := by simpa using hmem
    simp [setCorsHeaders, hmem2, corsRestHeaders_preserves_origin, resSet,
      assocFind_assocSet_self]
  · intro origins methods ah eh cred maxAge res
    simp [setCorsHeaders, corsRestHeaders_preserves_origin, resSet, assocFind_assocSet_self]
  · intro methods ah eh cred maxAge res originHeader
    simp [setCorsHeaders, corsRestHeaders_preserves_origin, resSet, assocFind_assocSet_self]
  · intro origin methods ah eh cred maxAge pfc req res hmeth
    simp [cors, hmeth]

/-- C9 witness: with the allow-list consisting of one site, the listed
origin is echoed back and an unlisted origin receives the literal string
"null". -/
theorem cors_spec_witness :
    assocFind (setCorsHeaders createResponse (.list ["https://a.com"]) ["GET"]
        ["Content-Type"] [] false 86400 (some "https://a.com")).headers
        "Access-Control-Allow-Origin" = some "https://a.com" ∧
    assocFind (setCorsHeaders createResponse (.list ["https://a.com"]) ["GET"]
        ["Content-Type"] [] false 86400 (some "https://evil.com")).headers
        "Access-Control-Allow-Origin" = some "null" :=
  ⟨cors_spec.1 ["https://a.com"] ["GET"] ["Content-Type"] [] false 86400 createResponse
      "https://a.com" (by decide) (by decide),
   cors_spec.2.1 ["https://a.com"] ["GET"] ["Content-Type"] [] false 86400 createResponse
      "https://evil.com" (by decide)⟩
